import Mathlib

/-!
Verification of the SUIT-manifest library core (`dress-up`): a shallow
embedding, in Lean 4, of the CBOR cursor, the parameter accumulator
(`ManifestState`), and the command-sequence interpreter, together with
theorems settling a list of claims about the specification.

Conventions of the embedding:

* Rust `Result<T, Error>` together with the possibility of a `todo!()`
  panic is modelled by `RResult`: `ok`, `err`, or `panicked` (the value an
  execution reaching a `todo!()` arm evaluates to).
* The minicbor `Decoder` is modelled as the unread suffix of the input
  buffer together with the number of bytes already consumed; `pos`
  therefore coincides with the minicbor position.  Every
  decoding primitive returns the decoder it leaves behind even on
  failure, because minicbor iterators keep decoding after a failed item.
* The crate forbids indefinite-length containers (spec section 4.1: the
  cursor fails with `UnexpectedIndefiniteLength` on them; `array()` and
  `map()` return `none` for an indefinite header, which the callers in
  the source turn into errors themselves).
* Machine integers are modelled as `Nat` or `Int`; the target is taken
  to be 64-bit, so `usize` is a `Nat` below `2 ^ 64`.
* `OperatingHooks` methods are opaque synchronous operations supplied by
  the integrator; they are modelled as pure functions returning
  `Except Error`, and every interpreter function additionally returns
  the list of hook invocations (`HookEvent`) it performed, in order.
* Cryptographic hashing is an external pure function; the interpreter is
  parameterised by `hashFn`, mapping an algorithm and an input byte
  stream to the digest output.
-/

/-- Error taxonomy of the crate (`src/error.rs`). -/
inductive Error where
  | CapacityError
  | ConditionMatchFail (pos : Nat)
  | TryEachFail (pos : Nat)
  | EndOfInput
  | InvalidCommandSequence (pos : Nat)
  | InvalidCommonSection
  | NoAuthObject
  | NoCommonSection
  | NoComponentList
  | NoManifestObject
  | ParameterNotSet (n : Nat)
  | UnexpectedCbor (pos : Nat)
  | UnexpectedIndefiniteLength (pos : Nat)
  | UnsupportedCommand (n : Int)
  | UnsupportedComponentIdentifier (n : Int)
  | UnsupportedDigestAlgo (n : Int)
  | UnsupportedManifestVersion
  | UnsupportedParameter (n : Int)
  | Utf8Error (n : Nat)
deriving DecidableEq, Repr

/-- Outcome of running a piece of Rust code: a value, an `Error` (the
`Result` error channel), or `panicked` for executions that reach a
`todo!()` arm. -/
inductive RResult (α : Type) where
  | ok (a : α)
  | err (e : Error)
  | panicked
deriving DecidableEq, Repr

/-- True iff the outcome is an `err`. -/
def RResult.isErr {α : Type} : RResult α → Bool
  | .err _ => true
  | _ => false

/-- True iff the outcome is an `ok`. -/
def RResult.isOk {α : Type} : RResult α → Bool
  | .ok _ => true
  | _ => false

/-- Model of `minicbor::decode::Decoder`: `rest` is the unread suffix of
the input buffer and `pos` the number of bytes consumed so far (equal to
the minicbor `position()`). -/
structure Decoder where
  rest : List UInt8
  pos : Nat
deriving DecidableEq, Repr

/-- `Decoder::new(bytes)`. -/
def Decoder.new (bytes : List UInt8) : Decoder := ⟨bytes, 0⟩

/-- Consume one byte (returned as its numeric value). -/
def Decoder.read (d : Decoder) : RResult Nat × Decoder :=
  match d.rest with
  | [] => (.err .EndOfInput, d)
  | b :: r => (.ok b.toNat, ⟨r, d.pos + 1⟩)

/-- Consume `n` bytes and return them as a big-endian natural number. -/
def Decoder.readBE : Nat → Decoder → RResult Nat × Decoder
  | 0, d => (.ok 0, d)
  | n + 1, d =>
    match d.read with
    | (.ok b, d₁) =>
      match Decoder.readBE n d₁ with
      | (.ok v, d₂) => (.ok (b * 256 ^ n + v), d₂)
      | (.err e, d₂) => (.err e, d₂)
      | (.panicked, d₂) => (.panicked, d₂)
    | (.err e, d₁) => (.err e, d₁)
    | (.panicked, d₁) => (.panicked, d₁)

/-- Consume `n` raw bytes. -/
def Decoder.readSlice (n : Nat) (d : Decoder) : RResult (List UInt8) × Decoder :=
  if n ≤ d.rest.length then (.ok (d.rest.take n), ⟨d.rest.drop n, d.pos + n⟩)
  else (.err .EndOfInput, d)

/-- Data-type classification returned by the `datatype()` method of minicbor
(peeks at the initial byte without consuming it). -/
inductive CborType where
  | tU8 | tU16 | tU32 | tU64
  | tI8 | tI16 | tI32 | tI64
  | tBytes | tBytesIndef | tString | tStringIndef
  | tArray | tArrayIndef | tMap | tMapIndef
  | tTag | tBool | tNull | tUndefined | tSimple | tBreak | tUnknown
deriving DecidableEq, Repr

/-- `Decoder::datatype()`: classify the next item from its initial byte;
the decoder is not advanced. -/
def Decoder.datatype (d : Decoder) : RResult CborType :=
  match d.rest with
  | [] => .err .EndOfInput
  | b :: _ =>
    let n := b.toNat
    if n ≤ 0x18 then .ok .tU8
    else if n = 0x19 then .ok .tU16
    else if n = 0x1a then .ok .tU32
    else if n = 0x1b then .ok .tU64
    else if n ≤ 0x38 ∧ 0x20 ≤ n then .ok .tI8
    else if n = 0x39 then .ok .tI16
    else if n = 0x3a then .ok .tI32
    else if n = 0x3b then .ok .tI64
    else if 0x40 ≤ n ∧ n ≤ 0x5b then .ok .tBytes
    else if n = 0x5f then .ok .tBytesIndef
    else if 0x60 ≤ n ∧ n ≤ 0x7b then .ok .tString
    else if n = 0x7f then .ok .tStringIndef
    else if 0x80 ≤ n ∧ n ≤ 0x9b then .ok .tArray
    else if n = 0x9f then .ok .tArrayIndef
    else if 0xa0 ≤ n ∧ n ≤ 0xbb then .ok .tMap
    else if n = 0xbf then .ok .tMapIndef
    else if 0xc0 ≤ n ∧ n ≤ 0xdb then .ok .tTag
    else if n = 0xf4 ∨ n = 0xf5 then .ok .tBool
    else if n = 0xf6 then .ok .tNull
    else if n = 0xf7 then .ok .tUndefined
    else if n = 0xff then .ok .tBreak
    else .err (.UnexpectedCbor d.pos)

/-- `Decoder::u8()`: unsigned integer restricted to the one-byte
encodings. -/
def Decoder.u8 (d : Decoder) : RResult Nat × Decoder :=
  let p0 := d.pos
  match d.read with
  | (.ok n, d₁) =>
    if n ≤ 0x17 then (.ok n, d₁)
    else if n = 0x18 then d₁.read
    else (.err (.UnexpectedCbor p0), d₁)
  | e => e

/-- `Decoder::u16()`: accepts any narrower unsigned encoding as well. -/
def Decoder.u16 (d : Decoder) : RResult Nat × Decoder :=
  let p0 := d.pos
  match d.read with
  | (.ok n, d₁) =>
    if n ≤ 0x17 then (.ok n, d₁)
    else if n = 0x18 then d₁.read
    else if n = 0x19 then d₁.readBE 2
    else (.err (.UnexpectedCbor p0), d₁)
  | e => e

/-- `Decoder::u32()`. -/
def Decoder.u32 (d : Decoder) : RResult Nat × Decoder :=
  let p0 := d.pos
  match d.read with
  | (.ok n, d₁) =>
    if n ≤ 0x17 then (.ok n, d₁)
    else if n = 0x18 then d₁.read
    else if n = 0x19 then d₁.readBE 2
    else if n = 0x1a then d₁.readBE 4
    else (.err (.UnexpectedCbor p0), d₁)
  | e => e

/-- `Decoder::u64()`. -/
def Decoder.u64 (d : Decoder) : RResult Nat × Decoder :=
  let p0 := d.pos
  match d.read with
  | (.ok n, d₁) =>
    if n ≤ 0x17 then (.ok n, d₁)
    else if n = 0x18 then d₁.read
    else if n = 0x19 then d₁.readBE 2
    else if n = 0x1a then d₁.readBE 4
    else if n = 0x1b then d₁.readBE 8
    else (.err (.UnexpectedCbor p0), d₁)
  | e => e

/-- Helper shared by the signed getters: map an `ok` numeric result. -/
def RResult.mapOk {α β : Type} (f : α → β) : RResult α × Decoder → RResult β × Decoder
  | (.ok a, d) => (.ok (f a), d)
  | (.err e, d) => (.err e, d)
  | (.panicked, d) => (.panicked, d)

/-- `Decoder::i16()`: signed 16-bit read with overflow checking. -/
def Decoder.i16 (d : Decoder) : RResult Int × Decoder :=
  let p0 := d.pos
  match d.read with
  | (.ok n, d₁) =>
    if n ≤ 0x17 then (.ok (n : Int), d₁)
    else if n = 0x18 then RResult.mapOk (fun (v : Nat) => (v : Int)) d₁.read
    else if n = 0x19 then
      match d₁.readBE 2 with
      | (.ok v, d₂) =>
        if v ≤ 0x7fff then (.ok (v : Int), d₂) else (.err (.UnexpectedCbor p0), d₂)
      | (.err e, d₂) => (.err e, d₂)
      | (.panicked, d₂) => (.panicked, d₂)
    else if 0x20 ≤ n ∧ n ≤ 0x37 then (.ok (-1 - ((n - 0x20 : Nat) : Int)), d₁)
    else if n = 0x38 then RResult.mapOk (fun (v : Nat) => -1 - (v : Int)) d₁.read
    else if n = 0x39 then
      match d₁.readBE 2 with
      | (.ok v, d₂) =>
        if v ≤ 0x8000 then (.ok (-1 - (v : Int)), d₂) else (.err (.UnexpectedCbor p0), d₂)
      | (.err e, d₂) => (.err e, d₂)
      | (.panicked, d₂) => (.panicked, d₂)
    else (.err (.UnexpectedCbor p0), d₁)
  | (.err e, d₁) => (.err e, d₁)
  | (.panicked, d₁) => (.panicked, d₁)

/-- `Decoder::i32()`. -/
def Decoder.i32 (d : Decoder) : RResult Int × Decoder :=
  let p0 := d.pos
  match d.read with
  | (.ok n, d₁) =>
    if n ≤ 0x17 then (.ok (n : Int), d₁)
    else if n = 0x18 then RResult.mapOk (fun (v : Nat) => (v : Int)) d₁.read
    else if n = 0x19 then RResult.mapOk (fun (v : Nat) => (v : Int)) (d₁.readBE 2)
    else if n = 0x1a then
      match d₁.readBE 4 with
      | (.ok v, d₂) =>
        if v ≤ 0x7fffffff then (.ok (v : Int), d₂) else (.err (.UnexpectedCbor p0), d₂)
      | (.err e, d₂) => (.err e, d₂)
      | (.panicked, d₂) => (.panicked, d₂)
    else if 0x20 ≤ n ∧ n ≤ 0x37 then (.ok (-1 - ((n - 0x20 : Nat) : Int)), d₁)
    else if n = 0x38 then RResult.mapOk (fun (v : Nat) => -1 - (v : Int)) d₁.read
    else if n = 0x39 then RResult.mapOk (fun (v : Nat) => -1 - (v : Int)) (d₁.readBE 2)
    else if n = 0x3a then
      match d₁.readBE 4 with
      | (.ok v, d₂) =>
        if v ≤ 0x80000000 then (.ok (-1 - (v : Int)), d₂) else (.err (.UnexpectedCbor p0), d₂)
      | (.err e, d₂) => (.err e, d₂)
      | (.panicked, d₂) => (.panicked, d₂)
    else (.err (.UnexpectedCbor p0), d₁)
  | (.err e, d₁) => (.err e, d₁)
  | (.panicked, d₁) => (.panicked, d₁)

/-- `Decoder::i64()`. -/
def Decoder.i64 (d : Decoder) : RResult Int × Decoder :=
  let p0 := d.pos
  match d.read with
  | (.ok n, d₁) =>
    if n ≤ 0x17 then (.ok (n : Int), d₁)
    else if n = 0x18 then RResult.mapOk (fun (v : Nat) => (v : Int)) d₁.read
    else if n = 0x19 then RResult.mapOk (fun (v : Nat) => (v : Int)) (d₁.readBE 2)
    else if n = 0x1a then RResult.mapOk (fun (v : Nat) => (v : Int)) (d₁.readBE 4)
    else if n = 0x1b then
      match d₁.readBE 8 with
      | (.ok v, d₂) =>
        if v ≤ 0x7fffffffffffffff then (.ok (v : Int), d₂)
        else (.err (.UnexpectedCbor p0), d₂)
      | (.err e, d₂) => (.err e, d₂)
      | (.panicked, d₂) => (.panicked, d₂)
    else if 0x20 ≤ n ∧ n ≤ 0x37 then (.ok (-1 - ((n - 0x20 : Nat) : Int)), d₁)
    else if n = 0x38 then RResult.mapOk (fun (v : Nat) => -1 - (v : Int)) d₁.read
    else if n = 0x39 then RResult.mapOk (fun (v : Nat) => -1 - (v : Int)) (d₁.readBE 2)
    else if n = 0x3a then RResult.mapOk (fun (v : Nat) => -1 - (v : Int)) (d₁.readBE 4)
    else if n = 0x3b then
      match d₁.readBE 8 with
      | (.ok v, d₂) =>
        if v ≤ 0x7fffffffffffffff then (.ok (-1 - (v : Int)), d₂)
        else (.err (.UnexpectedCbor p0), d₂)
      | (.err e, d₂) => (.err e, d₂)
      | (.panicked, d₂) => (.panicked, d₂)
    else (.err (.UnexpectedCbor p0), d₁)
  | (.err e, d₁) => (.err e, d₁)
  | (.panicked, d₁) => (.panicked, d₁)

/-- `Decoder::bool()`. -/
def Decoder.bool (d : Decoder) : RResult Bool × Decoder :=
  let p0 := d.pos
  match d.read with
  | (.ok n, d₁) =>
    if n = 0xf4 then (.ok false, d₁)
    else if n = 0xf5 then (.ok true, d₁)
    else (.err (.UnexpectedCbor p0), d₁)
  | (.err e, d₁) => (.err e, d₁)
  | (.panicked, d₁) => (.panicked, d₁)

/-- `Decoder::bytes()`: borrow of a definite-length byte string. -/
def Decoder.bytes (d : Decoder) : RResult (List UInt8) × Decoder :=
  let p0 := d.pos
  match d.read with
  | (.ok n, d₁) =>
    if 0x40 ≤ n ∧ n ≤ 0x57 then d₁.readSlice (n - 0x40)
    else if n = 0x58 then
      match d₁.read with
      | (.ok len, d₂) => d₂.readSlice len
      | (.err e, d₂) => (.err e, d₂)
      | (.panicked, d₂) => (.panicked, d₂)
    else if n = 0x59 then
      match d₁.readBE 2 with
      | (.ok len, d₂) => d₂.readSlice len
      | (.err e, d₂) => (.err e, d₂)
      | (.panicked, d₂) => (.panicked, d₂)
    else if n = 0x5a then
      match d₁.readBE 4 with
      | (.ok len, d₂) => d₂.readSlice len
      | (.err e, d₂) => (.err e, d₂)
      | (.panicked, d₂) => (.panicked, d₂)
    else if n = 0x5b then
      match d₁.readBE 8 with
      | (.ok len, d₂) => d₂.readSlice len
      | (.err e, d₂) => (.err e, d₂)
      | (.panicked, d₂) => (.panicked, d₂)
    else (.err (.UnexpectedCbor p0), d₁)
  | (.err e, d₁) => (.err e, d₁)
  | (.panicked, d₁) => (.panicked, d₁)

/-- Continuation-byte test of the UTF-8 validator. -/
def utf8Cont (b : UInt8) : Bool := decide (0x80 ≤ b.toNat ∧ b.toNat ≤ 0xbf)

/-- UTF-8 validity of a byte sequence (RFC 3629 ranges, as enforced by
`str::from_utf8` which backs the minicbor `str()` method). -/
def utf8Valid : List UInt8 → Bool
  | [] => true
  | b :: r =>
    let n := b.toNat
    if n ≤ 0x7f then utf8Valid r
    else if n < 0xc2 then false
    else if n ≤ 0xdf then
      match r with
      | c1 :: r1 => utf8Cont c1 && utf8Valid r1
      | [] => false
    else if n ≤ 0xef then
      match r with
      | c1 :: c2 :: r2 =>
        (if n = 0xe0 then decide (0xa0 ≤ c1.toNat ∧ c1.toNat ≤ 0xbf)
         else if n = 0xed then decide (0x80 ≤ c1.toNat ∧ c1.toNat ≤ 0x9f)
         else utf8Cont c1) && utf8Cont c2 && utf8Valid r2
      | _ => false
    else if n ≤ 0xf4 then
      match r with
      | c1 :: c2 :: c3 :: r3 =>
        (if n = 0xf0 then decide (0x90 ≤ c1.toNat ∧ c1.toNat ≤ 0xbf)
         else if n = 0xf4 then decide (0x80 ≤ c1.toNat ∧ c1.toNat ≤ 0x8f)
         else utf8Cont c1) && utf8Cont c2 && utf8Cont c3 && utf8Valid r3
      | _ => false
    else false

/-- `Decoder::str()`: definite-length text string, validated as UTF-8
(the text is kept as its byte sequence). -/
def Decoder.str (d : Decoder) : RResult (List UInt8) × Decoder :=
  let p0 := d.pos
  match d.read with
  | (.ok n, d₁) =>
    let withLen : Nat → Decoder → RResult (List UInt8) × Decoder := fun len d₂ =>
      match d₂.readSlice len with
      | (.ok bs, d₃) =>
        if utf8Valid bs then (.ok bs, d₃) else (.err (.UnexpectedCbor p0), d₃)
      | (.err e, d₃) => (.err e, d₃)
      | (.panicked, d₃) => (.panicked, d₃)
    if 0x60 ≤ n ∧ n ≤ 0x77 then withLen (n - 0x60) d₁
    else if n = 0x78 then
      match d₁.read with
      | (.ok len, d₂) => withLen len d₂
      | (.err e, d₂) => (.err e, d₂)
      | (.panicked, d₂) => (.panicked, d₂)
    else if n = 0x79 then
      match d₁.readBE 2 with
      | (.ok len, d₂) => withLen len d₂
      | (.err e, d₂) => (.err e, d₂)
      | (.panicked, d₂) => (.panicked, d₂)
    else if n = 0x7a then
      match d₁.readBE 4 with
      | (.ok len, d₂) => withLen len d₂
      | (.err e, d₂) => (.err e, d₂)
      | (.panicked, d₂) => (.panicked, d₂)
    else (.err (.UnexpectedCbor p0), d₁)
  | (.err e, d₁) => (.err e, d₁)
  | (.panicked, d₁) => (.panicked, d₁)

/-- `Decoder::array()`: definite length as `some n`, indefinite header
as `none`. -/
def Decoder.array (d : Decoder) : RResult (Option Nat) × Decoder :=
  let p0 := d.pos
  match d.read with
  | (.ok n, d₁) =>
    if 0x80 ≤ n ∧ n ≤ 0x97 then (.ok (some (n - 0x80)), d₁)
    else if n = 0x98 then RResult.mapOk some d₁.read
    else if n = 0x99 then RResult.mapOk some (d₁.readBE 2)
    else if n = 0x9a then RResult.mapOk some (d₁.readBE 4)
    else if n = 0x9b then RResult.mapOk some (d₁.readBE 8)
    else if n = 0x9f then (.ok none, d₁)
    else (.err (.UnexpectedCbor p0), d₁)
  | (.err e, d₁) => (.err e, d₁)
  | (.panicked, d₁) => (.panicked, d₁)

/-- `Decoder::map()`: definite length as `some n`, indefinite header as
`none`. -/
def Decoder.map (d : Decoder) : RResult (Option Nat) × Decoder :=
  let p0 := d.pos
  match d.read with
  | (.ok n, d₁) =>
    if 0xa0 ≤ n ∧ n ≤ 0xb7 then (.ok (some (n - 0xa0)), d₁)
    else if n = 0xb8 then RResult.mapOk some d₁.read
    else if n = 0xb9 then RResult.mapOk some (d₁.readBE 2)
    else if n = 0xba then RResult.mapOk some (d₁.readBE 4)
    else if n = 0xbb then RResult.mapOk some (d₁.readBE 8)
    else if n = 0xbf then (.ok none, d₁)
    else (.err (.UnexpectedCbor p0), d₁)
  | (.err e, d₁) => (.err e, d₁)
  | (.panicked, d₁) => (.panicked, d₁)

/-- `Decoder::tag()`. -/
def Decoder.tag (d : Decoder) : RResult Nat × Decoder :=
  let p0 := d.pos
  match d.read with
  | (.ok n, d₁) =>
    if 0xc0 ≤ n ∧ n ≤ 0xd7 then (.ok (n - 0xc0), d₁)
    else if n = 0xd8 then d₁.read
    else if n = 0xd9 then d₁.readBE 2
    else if n = 0xda then d₁.readBE 4
    else if n = 0xdb then d₁.readBE 8
    else (.err (.UnexpectedCbor p0), d₁)
  | (.err e, d₁) => (.err e, d₁)
  | (.panicked, d₁) => (.panicked, d₁)

/-- Read the argument encoded by the additional-information bits `ai`
(used by `skip`): `some` value for definite arguments, `none` for the
indefinite marker. -/
def Decoder.readArg (ai p0 : Nat) (d : Decoder) : RResult (Option Nat) × Decoder :=
  if ai ≤ 23 then (.ok (some ai), d)
  else if ai = 24 then RResult.mapOk some d.read
  else if ai = 25 then RResult.mapOk some (d.readBE 2)
  else if ai = 26 then RResult.mapOk some (d.readBE 4)
  else if ai = 27 then RResult.mapOk some (d.readBE 8)
  else if ai = 31 then (.ok none, d)
  else (.err (.UnexpectedCbor p0), d)

/-- Worker for `skip`: `k` complete items remain to be skipped; `fuel`
bounds the number of headers still to be visited (every visit consumes
at least one input byte, so `rest.length + 1` is always enough).
Indefinite-length items are rejected, following spec section 4.1 (this
profile mandates definite lengths). -/
def Decoder.skipItems : Nat → Nat → Decoder → RResult Unit × Decoder
  | 0, _, d => (.err .EndOfInput, d)
  | _ + 1, 0, d => (.ok (), d)
  | fuel + 1, k + 1, d =>
    let p0 := d.pos
    match d.read with
    | (.ok n, d₁) =>
      let major := n / 32
      let ai := n % 32
      match d₁.readArg ai p0 with
      | (.ok arg, d₂) =>
        match arg with
        | some v =>
          if major ≤ 1 then Decoder.skipItems fuel k d₂
          else if major = 2 ∨ major = 3 then
            match d₂.readSlice v with
            | (.ok _, d₃) => Decoder.skipItems fuel k d₃
            | (.err e, d₃) => (.err e, d₃)
            | (.panicked, d₃) => (.panicked, d₃)
          else if major = 4 then Decoder.skipItems fuel (k + v) d₂
          else if major = 5 then Decoder.skipItems fuel (k + 2 * v) d₂
          else if major = 6 then Decoder.skipItems fuel (k + 1) d₂
          else Decoder.skipItems fuel k d₂
        | none => (.err (.UnexpectedIndefiniteLength p0), d₂)
      | (.err e, d₂) => (.err e, d₂)
      | (.panicked, d₂) => (.panicked, d₂)
    | (.err e, d₁) => (.err e, d₁)
    | (.panicked, d₁) => (.panicked, d₁)

/-- `Decoder::skip()`: advance past one complete CBOR item. -/
def Decoder.skip (d : Decoder) : RResult Unit × Decoder :=
  Decoder.skipItems (d.rest.length + 1) 1 d

/-- `SuitParameter` (`src/consts.rs`). -/
inductive SuitParameter where
  | Unset | VendorId | ClassId | ImageDigest | ComponentSlot
  | StrictOrder | SoftFailure | ImageSize | Content | Uri
  | SourceComponent | InvokeArgs | DeviceId
deriving DecidableEq, Repr

/-- `impl From<SuitParameter> for i32` (the `num_enum::IntoPrimitive`
derive returns the declared discriminant). -/
def SuitParameter.toInt : SuitParameter → Int
  | .Unset => 0
  | .VendorId => 1
  | .ClassId => 2
  | .ImageDigest => 3
  | .ComponentSlot => 5
  | .StrictOrder => 12
  | .SoftFailure => 13
  | .ImageSize => 14
  | .Content => 18
  | .Uri => 21
  | .SourceComponent => 22
  | .InvokeArgs => 23
  | .DeviceId => 24

/-- `impl TryFrom<i32> for SuitParameter` (`src/consts.rs`), including
the aliasing in the source of code 4 to `ComponentSlot`. -/
def SuitParameter.tryFrom (value : Int) : RResult SuitParameter :=
  if value = 0 then .ok .Unset
  else if value = 1 then .ok .VendorId
  else if value = 2 then .ok .ClassId
  else if value = 3 then .ok .ImageDigest
  else if value = 4 then .ok .ComponentSlot
  else if value = 5 then .ok .ComponentSlot
  else if value = 12 then .ok .StrictOrder
  else if value = 13 then .ok .SoftFailure
  else if value = 14 then .ok .ImageSize
  else if value = 18 then .ok .Content
  else if value = 21 then .ok .Uri
  else if value = 22 then .ok .SourceComponent
  else if value = 23 then .ok .InvokeArgs
  else if value = 24 then .ok .DeviceId
  else .err (.UnsupportedParameter value)

/-- `SuitCommand` (`src/consts.rs`). -/
inductive SuitCommand where
  | Unset | VendorIdentifier | ClassIdentifier | ImageMatch | ComponentSlot
  | CheckContent | SetComponentIndex | Abort | TryEach | WriteContent
  | OverrideParameters | Fetch | Copy | Invoke | DeviceIdentifier
  | Swap | RunSequence
  | Custom (n : Int)
deriving DecidableEq, Repr

/-- `impl From<i32> for SuitCommand`. -/
def SuitCommand.fromInt (value : Int) : SuitCommand :=
  if value = 1 then .VendorIdentifier
  else if value = 2 then .ClassIdentifier
  else if value = 3 then .ImageMatch
  else if value = 5 then .ComponentSlot
  else if value = 6 then .CheckContent
  else if value = 12 then .SetComponentIndex
  else if value = 14 then .Abort
  else if value = 15 then .TryEach
  else if value = 18 then .WriteContent
  else if value = 20 then .OverrideParameters
  else if value = 21 then .Fetch
  else if value = 22 then .Copy
  else if value = 23 then .Invoke
  else if value = 24 then .DeviceIdentifier
  else if value = 31 then .Swap
  else if value = 32 then .RunSequence
  else .Custom value

/-- `impl From<SuitCommand> for i32`. -/
def SuitCommand.toInt : SuitCommand → Int
  | .Unset => 0
  | .VendorIdentifier => 1
  | .ClassIdentifier => 2
  | .ImageMatch => 3
  | .ComponentSlot => 5
  | .CheckContent => 6
  | .SetComponentIndex => 12
  | .Abort => 14
  | .TryEach => 15
  | .WriteContent => 18
  | .OverrideParameters => 20
  | .Fetch => 21
  | .Copy => 22
  | .Invoke => 23
  | .DeviceIdentifier => 24
  | .Swap => 31
  | .RunSequence => 32
  | .Custom n => n

/-- `SuitDigestAlgorithm` (`src/digest.rs`). -/
inductive SuitDigestAlgorithm where
  | Sha256 | Shake128 | Sha384 | Sha512 | Shake256
deriving DecidableEq, Repr

/-- Declared discriminants of `SuitDigestAlgorithm` (`repr(i64)`). -/
def SuitDigestAlgorithm.toInt : SuitDigestAlgorithm → Int
  | .Sha256 => -16
  | .Shake128 => -18
  | .Sha384 => -43
  | .Sha512 => -44
  | .Shake256 => -45

/-- `TryFromPrimitive` for `SuitDigestAlgorithm`, with
`Error::digest_algo_error` as the error constructor. -/
def SuitDigestAlgorithm.tryFrom (value : Int) : RResult SuitDigestAlgorithm :=
  if value = -16 then .ok .Sha256
  else if value = -18 then .ok .Shake128
  else if value = -43 then .ok .Sha384
  else if value = -44 then .ok .Sha512
  else if value = -45 then .ok .Shake256
  else .err (.UnsupportedDigestAlgo value)

/-- `SuitDigest` (`src/digest.rs`): algorithm plus borrowed digest
bytes. -/
structure SuitDigest where
  algo : SuitDigestAlgorithm
  digest : List UInt8
deriving DecidableEq, Repr

/-- `impl Decode for SuitDigest`: a two-element array `[i64 algo, bstr
hash]`.  The errors this impl constructs carry no position, which the
`From<minicbor Error>` conversion of the crate turns into position `0`. -/
def SuitDigest.decode (d : Decoder) : RResult SuitDigest × Decoder :=
  match d.array with
  | (.ok len, d₁) =>
    if len = some 2 then
      match d₁.i64 with
      | (.ok algo, d₂) =>
        match d₂.bytes with
        | (.ok digest, d₃) =>
          match SuitDigestAlgorithm.tryFrom algo with
          | .ok a => (.ok ⟨a, digest⟩, d₃)
          | _ => (.err (.UnexpectedCbor 0), d₃)
        | (.err e, d₃) => (.err e, d₃)
        | (.panicked, d₃) => (.panicked, d₃)
      | (.err e, d₂) => (.err e, d₂)
      | (.panicked, d₂) => (.panicked, d₂)
    else (.err (.UnexpectedCbor 0), d₁)
  | (.err e, d₁) => (.err e, d₁)
  | (.panicked, d₁) => (.panicked, d₁)

/-- `ReportingPolicy` (`src/report.rs`). -/
structure ReportingPolicy where
  policy : Nat
deriving DecidableEq, Repr

/-- `impl Decode for ReportingPolicy`: a `u8` restricted to `0..=15`.
The out-of-range error carries no position, so the crate conversion
reports position `0`. -/
def ReportingPolicy.decode (d : Decoder) : RResult ReportingPolicy × Decoder :=
  match d.u8 with
  | (.ok policy, d₁) =>
    if policy > 15 then (.err (.UnexpectedCbor 0), d₁)
    else (.ok ⟨policy⟩, d₁)
  | (.err e, d₁) => (.err e, d₁)
  | (.panicked, d₁) => (.panicked, d₁)

/-- `uuid::Uuid`, built from exactly 16 bytes. -/
structure Uuid where
  bytes : List UInt8
deriving DecidableEq, Repr

/-- `ByteArray::<16>::decode` followed by `Uuid::from_bytes`: a byte
string that must hold exactly 16 bytes. -/
def Uuid.decode16 (d : Decoder) : RResult Uuid × Decoder :=
  let p0 := d.pos
  match d.bytes with
  | (.ok bs, d₁) =>
    if bs.length = 16 then (.ok ⟨bs⟩, d₁) else (.err (.UnexpectedCbor p0), d₁)
  | (.err e, d₁) => (.err e, d₁)
  | (.panicked, d₁) => (.panicked, d₁)

/-- One lexical token, as decoded by the minicbor `Decode` instance for
`minicbor::data::Token` (a composite header is a token of its own). -/
inductive Token where
  | tokU8 (n : Nat)
  | tokU16 (n : Nat)
  | tokU32 (n : Nat)
  | tokU64 (n : Nat)
  | tokI8 (n : Int)
  | tokI16 (n : Int)
  | tokI32 (n : Int)
  | tokI64 (n : Int)
  | tokBool (b : Bool)
  | tokBytes (bs : List UInt8)
  | tokString (bs : List UInt8)
  | tokArray (n : Nat)
  | tokMap (n : Nat)
  | tokTag (n : Nat)
  | tokNull
  | tokUndefined
deriving DecidableEq, Repr

/-- the `Decode` instance of `Token`: dispatch on `datatype()` and read a
single token.  Indefinite-length headers are rejected per spec section
4.1 (definite lengths are mandated by the profile). -/
def Token.decode (d : Decoder) : RResult Token × Decoder :=
  match d.datatype with
  | .ok t =>
    match t with
    | .tU8 => RResult.mapOk Token.tokU8 d.u8
    | .tU16 => RResult.mapOk Token.tokU16 d.u16
    | .tU32 => RResult.mapOk Token.tokU32 d.u32
    | .tU64 => RResult.mapOk Token.tokU64 d.u64
    | .tI8 => RResult.mapOk Token.tokI8 d.i16
    | .tI16 => RResult.mapOk Token.tokI16 d.i16
    | .tI32 => RResult.mapOk Token.tokI32 d.i32
    | .tI64 => RResult.mapOk Token.tokI64 d.i64
    | .tBool => RResult.mapOk Token.tokBool d.bool
    | .tBytes => RResult.mapOk Token.tokBytes d.bytes
    | .tString => RResult.mapOk Token.tokString d.str
    | .tArray =>
      match d.array with
      | (.ok (some n), d₁) => (.ok (.tokArray n), d₁)
      | (.ok none, d₁) => (.err (.UnexpectedIndefiniteLength d.pos), d₁)
      | (.err e, d₁) => (.err e, d₁)
      | (.panicked, d₁) => (.panicked, d₁)
    | .tMap =>
      match d.map with
      | (.ok (some n), d₁) => (.ok (.tokMap n), d₁)
      | (.ok none, d₁) => (.err (.UnexpectedIndefiniteLength d.pos), d₁)
      | (.err e, d₁) => (.err e, d₁)
      | (.panicked, d₁) => (.panicked, d₁)
    | .tTag => RResult.mapOk Token.tokTag d.tag
    | .tNull =>
      match d.read with
      | (_, d₁) => (.ok .tokNull, d₁)
    | .tUndefined =>
      match d.read with
      | (_, d₁) => (.ok .tokUndefined, d₁)
    | _ => (.err (.UnexpectedCbor d.pos), d)
  | .err e => (.err e, d)
  | .panicked => (.panicked, d)

/-- `Component` (`src/component.rs`): the borrowed CBOR span identifying
a storage target. -/
structure Component where
  cbor : List UInt8
deriving DecidableEq, Repr

/-- `Component::from_bytes`. -/
def Component.from_bytes (bytes : List UInt8) : Component := ⟨bytes⟩

/-- `impl Decode for Component`: record the position, `skip()` one item,
and borrow the span between the two positions. -/
def Component.decode (d : Decoder) : RResult Component × Decoder :=
  match d.skip with
  | (.ok _, d₁) => (.ok ⟨d.rest.take (d₁.pos - d.pos)⟩, d₁)
  | (.err e, d₁) => (.err e, d₁)
  | (.panicked, d₁) => (.panicked, d₁)

/-- `ComponentInfo` (`src/component.rs`): a component plus its zero-based
index in the common component list. -/
structure ComponentInfo where
  component : Component
  index : Nat
deriving DecidableEq, Repr

/-- Loop of the `Array` arm of `in_applylist`:
`array_iter::<u32>().any(|x| x.is_ok_and(|i| i == index))`.  `any`
stops at the first hit; an element that fails to decode as `u32` counts
as `false` and iteration continues from wherever the decoder stopped. -/
def inApplylistAny (index : Nat) : Nat → Decoder → RResult Bool × Decoder
  | 0, d => (.ok false, d)
  | n + 1, d =>
    match d.u32 with
    | (.ok v, d₁) =>
      if v = index then (.ok true, d₁) else inApplylistAny index n d₁
    | (.err _, d₁) => inApplylistAny index n d₁
    | (.panicked, d₁) => (.panicked, d₁)

/-- `ComponentInfo::in_applylist` (`src/component.rs`): membership of
the index of this component in a `SetComponentIndex` argument. -/
def ComponentInfo.in_applylist (info : ComponentInfo) (d : Decoder) :
    RResult Bool × Decoder :=
  match d.datatype with
  | .ok .tBool =>
    match d.bool with
    | (.ok b, d₁) =>
      if b then (.ok true, d₁) else (.err (.UnexpectedCbor d₁.pos), d₁)
    | (.err e, d₁) => (.err e, d₁)
    | (.panicked, d₁) => (.panicked, d₁)
  | .ok .tU8 | .ok .tU16 | .ok .tU32 =>
    match d.u32 with
    | (.ok v, d₁) => (.ok (v = info.index : Bool), d₁)
    | (.err e, d₁) => (.err e, d₁)
    | (.panicked, d₁) => (.panicked, d₁)
  | .ok .tArray =>
    match d.array with
    | (.ok (some n), d₁) => inApplylistAny info.index n d₁
    | (.ok none, d₁) => (.err (.UnexpectedIndefiniteLength d.pos), d₁)
    | (.err e, d₁) => (.err e, d₁)
    | (.panicked, d₁) => (.panicked, d₁)
  | .ok _ => (.err (.UnexpectedCbor d.pos), d)
  | .err e => (.err e, d)
  | .panicked => (.panicked, d)

/-- `ManifestState` (`src/manifeststate.rs`): the accumulator of typed
parameters.  Every field is optional. -/
structure ManifestState where
  component_index : Option Component := none
  content : Option (List UInt8) := none
  vendor_id : Option Uuid := none
  class_id : Option Uuid := none
  device_id : Option Uuid := none
  image_digest : Option SuitDigest := none
  component_slot : Option Nat := none
  image_size : Option Nat := none
  uri : Option (List UInt8) := none
deriving DecidableEq, Repr

/-- `ManifestState::default()`. -/
def ManifestState.default : ManifestState := {}

/-- `set_vendor_id`. -/
def ManifestState.set_vendor_id (s : ManifestState) (vendor : Uuid) : ManifestState :=
  { s with vendor_id := some vendor }

/-- `set_class_id`. -/
def ManifestState.set_class_id (s : ManifestState) (class_ : Uuid) : ManifestState :=
  { s with class_id := some class_ }

/-- `set_device_id`. -/
def ManifestState.set_device_id (s : ManifestState) (device : Uuid) : ManifestState :=
  { s with device_id := some device }

/-- `set_content`. -/
def ManifestState.set_content (s : ManifestState) (content : List UInt8) : ManifestState :=
  { s with content := some content }

/-- `set_image_digest`. -/
def ManifestState.set_image_digest (s : ManifestState) (digest : SuitDigest) : ManifestState :=
  { s with image_digest := some digest }

/-- `component_slot` setter. -/
def ManifestState.set_component_slot (s : ManifestState) (slot : Nat) : ManifestState :=
  { s with component_slot := some slot }

/-- `set_image_size`. -/
def ManifestState.set_image_size (s : ManifestState) (size : Nat) : ManifestState :=
  { s with image_size := some size }

/-- `set_uri`. -/
def ManifestState.set_uri (s : ManifestState) (uri : List UInt8) : ManifestState :=
  { s with uri := some uri }

/-- `vendor_id_from_cbor`: 16 raw bytes decoded as a UUID, stored via
`set_vendor_id`. -/
def ManifestState.vendor_id_from_cbor (s : ManifestState) (d : Decoder) :
    RResult Unit × ManifestState × Decoder :=
  match Uuid.decode16 d with
  | (.ok u, d₁) => (.ok (), s.set_vendor_id u, d₁)
  | (.err e, d₁) => (.err e, s, d₁)
  | (.panicked, d₁) => (.panicked, s, d₁)

/-- `class_id_from_cbor`. -/
def ManifestState.class_id_from_cbor (s : ManifestState) (d : Decoder) :
    RResult Unit × ManifestState × Decoder :=
  match Uuid.decode16 d with
  | (.ok u, d₁) => (.ok (), s.set_class_id u, d₁)
  | (.err e, d₁) => (.err e, s, d₁)
  | (.panicked, d₁) => (.panicked, s, d₁)

/-- `device_id_from_cbor`: decodes 16 bytes as a UUID and then — exactly
as the source does — stores it through `set_vendor_id`. -/
def ManifestState.device_id_from_cbor (s : ManifestState) (d : Decoder) :
    RResult Unit × ManifestState × Decoder :=
  match Uuid.decode16 d with
  | (.ok u, d₁) => (.ok (), s.set_vendor_id u, d₁)
  | (.err e, d₁) => (.err e, s, d₁)
  | (.panicked, d₁) => (.panicked, s, d₁)

/-- `content_from_cbor`: byte-string borrow stored via `set_content`. -/
def ManifestState.content_from_cbor (s : ManifestState) (d : Decoder) :
    RResult Unit × ManifestState × Decoder :=
  match d.bytes with
  | (.ok bs, d₁) => (.ok (), s.set_content bs, d₁)
  | (.err e, d₁) => (.err e, s, d₁)
  | (.panicked, d₁) => (.panicked, s, d₁)

/-- `image_digest_from_cbor`: an outer byte string whose contents are
decoded, from a fresh inner decoder, as a `SuitDigest`. -/
def ManifestState.image_digest_from_cbor (s : ManifestState) (d : Decoder) :
    RResult Unit × ManifestState × Decoder :=
  match d.bytes with
  | (.ok bs, d₁) =>
    match SuitDigest.decode (Decoder.new bs) with
    | (.ok digest, _) => (.ok (), s.set_image_digest digest, d₁)
    | (.err e, _) => (.err e, s, d₁)
    | (.panicked, _) => (.panicked, s, d₁)
  | (.err e, d₁) => (.err e, s, d₁)
  | (.panicked, d₁) => (.panicked, s, d₁)

/-- `component_slot_from_cbor`: a `u64`. -/
def ManifestState.component_slot_from_cbor (s : ManifestState) (d : Decoder) :
    RResult Unit × ManifestState × Decoder :=
  match d.u64 with
  | (.ok slot, d₁) => (.ok (), s.set_component_slot slot, d₁)
  | (.err e, d₁) => (.err e, s, d₁)
  | (.panicked, d₁) => (.panicked, s, d₁)

/-- `image_size_from_cbor`: a `u64` narrowed to `usize`.  On the 64-bit
target modelled here the narrowing `try_into` cannot fail (any value a
`u64` read produces is below `2 ^ 64`). -/
def ManifestState.image_size_from_cbor (s : ManifestState) (d : Decoder) :
    RResult Unit × ManifestState × Decoder :=
  match d.u64 with
  | (.ok size, d₁) => (.ok (), s.set_image_size size, d₁)
  | (.err e, d₁) => (.err e, s, d₁)
  | (.panicked, d₁) => (.panicked, s, d₁)

/-- `uri_from_cbor`: a text-string borrow. -/
def ManifestState.uri_from_cbor (s : ManifestState) (d : Decoder) :
    RResult Unit × ManifestState × Decoder :=
  match d.str with
  | (.ok uri, d₁) => (.ok (), s.set_uri uri, d₁)
  | (.err e, d₁) => (.err e, s, d₁)
  | (.panicked, d₁) => (.panicked, s, d₁)

/-- Body of the `for _ in 0..length` loop of `update_parameter`: decode
an `i32` key, convert it with `SuitParameter::try_from`, and dispatch.
`SourceComponent` is a `todo!()` arm in the source; `Unset`,
`StrictOrder`, `SoftFailure`, `Content` and `InvokeArgs` fall to the
catch-all `UnsupportedParameter(param.into())` arm. -/
def ManifestState.update_parameter_loop :
    Nat → ManifestState → Decoder → RResult Unit × ManifestState × Decoder
  | 0, s, d => (.ok (), s, d)
  | k + 1, s, d =>
    match d.i32 with
    | (.ok key, d₁) =>
      match SuitParameter.tryFrom key with
      | .ok param =>
        let step : RResult Unit × ManifestState × Decoder :=
          match param with
          | .VendorId => s.vendor_id_from_cbor d₁
          | .ClassId => s.class_id_from_cbor d₁
          | .ImageDigest => s.image_digest_from_cbor d₁
          | .ComponentSlot => s.component_slot_from_cbor d₁
          | .ImageSize => s.image_size_from_cbor d₁
          | .Uri => s.uri_from_cbor d₁
          | .SourceComponent => (.panicked, s, d₁)
          | .DeviceId => s.device_id_from_cbor d₁
          | p => (.err (.UnsupportedParameter p.toInt), s, d₁)
        match step with
        | (.ok _, s₁, d₂) => ManifestState.update_parameter_loop k s₁ d₂
        | (.err e, s₁, d₂) => (.err e, s₁, d₂)
        | (.panicked, s₁, d₂) => (.panicked, s₁, d₂)
      | .err e => (.err e, s, d₁)
      | .panicked => (.panicked, s, d₁)
    | (.err e, d₁) => (.err e, s, d₁)
    | (.panicked, d₁) => (.panicked, s, d₁)

/-- `ManifestState::update_parameter` (`src/manifeststate.rs`): read a
definite-length map header and dispatch every entry. -/
def ManifestState.update_parameter (s : ManifestState) (d : Decoder) :
    RResult Unit × ManifestState × Decoder :=
  match d.map with
  | (.ok (some length), d₁) => ManifestState.update_parameter_loop length s d₁
  | (.ok none, d₁) => (.err (.UnexpectedIndefiniteLength d₁.pos), s, d₁)
  | (.err e, d₁) => (.err e, s, d₁)
  | (.panicked, d₁) => (.panicked, s, d₁)

/-- `SUIT_SUPPORTED_VERSION` (`src/consts.rs`). -/
def SUIT_SUPPORTED_VERSION : Nat := 1

/-- `Manifest` (`src/manifest.rs`): a cursor over the manifest bytes
(the compile-time `New`/`Authenticated` tag has no runtime content). -/
structure Manifest where
  decoder : Decoder
deriving DecidableEq, Repr

/-- `Manifest::from_bytes`. -/
def Manifest.from_bytes (bytes : List UInt8) : Manifest := ⟨Decoder.new bytes⟩

/-- The `find_map` of `version()` over `map_iter::<i16, Token>`: stop at
the first entry whose key decodes to `1` (`EncodingVersion`) and return
its value token; entries that fail to decode are skipped and iteration
continues from wherever the decoder stopped (as the map iterator of minicbor
does). -/
def mapFindEncodingVersion : Nat → Decoder → Option Token
  | 0, _ => none
  | n + 1, d =>
    match d.i16 with
    | (.ok key, d₁) =>
      match Token.decode d₁ with
      | (.ok value, d₂) =>
        if key = 1 then some value else mapFindEncodingVersion n d₂
      | (_, d₂) => mapFindEncodingVersion n d₂
    | (_, d₁) => mapFindEncodingVersion n d₁

/-- `Manifest::version()` (`src/manifest.rs`): locate key 1 and require
its value to be the `u8`-class token `1`. -/
def Manifest.version (m : Manifest) : RResult Nat :=
  let d := m.decoder
  match d.map with
  | (.ok (some n), d₁) =>
    match mapFindEncodingVersion n d₁ with
    | some (.tokU8 v) =>
      if v = SUIT_SUPPORTED_VERSION then .ok v else .err .UnsupportedManifestVersion
    | _ => .err .UnsupportedManifestVersion
  | (.ok none, _) => .err (.UnexpectedIndefiniteLength d.pos)
  | (.err e, _) => .err e
  | (.panicked, _) => .panicked

/-- The `find_map` of `get_common()`: first entry whose key is `3`
(`CommonData`) and whose value token is a byte string. -/
def mapFindCommonData : Nat → Decoder → Option (List UInt8)
  | 0, _ => none
  | n + 1, d =>
    match d.i16 with
    | (.ok key, d₁) =>
      match Token.decode d₁ with
      | (.ok (.tokBytes bs), d₂) =>
        if key = 3 then some bs else mapFindCommonData n d₂
      | (.ok _, d₂) => mapFindCommonData n d₂
      | (_, d₂) => mapFindCommonData n d₂
    | (_, d₁) => mapFindCommonData n d₁

/-- `Manifest::get_common` (`src/manifest.rs`). -/
def Manifest.get_common (m : Manifest) : RResult (List UInt8) :=
  let d := m.decoder
  match d.map with
  | (.ok (some n), d₁) =>
    match mapFindCommonData n d₁ with
    | some bs => .ok bs
    | none => .err .NoCommonSection
  | (.ok none, _) => .err (.UnexpectedIndefiniteLength d.pos)
  | (.err e, _) => .err e
  | (.panicked, _) => .panicked

/-- Loop of `decode_common` over `map_iter::<i32, &ByteSlice>`: every
entry is decoded, later occurrences of a key overwrite earlier ones, and
an entry that fails to decode aborts with its error. -/
def decodeCommonLoop :
    Nat → Decoder → Option (List UInt8) → Option (List UInt8) →
    RResult (Option (List UInt8) × Option (List UInt8))
  | 0, _, components, commands => .ok (components, commands)
  | n + 1, d, components, commands =>
    match d.i32 with
    | (.ok key, d₁) =>
      match d₁.bytes with
      | (.ok value, d₂) =>
        if key = 2 then decodeCommonLoop n d₂ (some value) commands
        else if key = 4 then decodeCommonLoop n d₂ components (some value)
        else decodeCommonLoop n d₂ components commands
      | (.err e, _) => .err e
      | (.panicked, _) => .panicked
    | (.err e, _) => .err e
    | (.panicked, _) => .panicked

/-- `Manifest::decode_common` (`src/manifest.rs`): the inner common map
must deliver both key 2 (components) and key 4 (common command
sequence). -/
def Manifest.decode_common (_m : Manifest) (common : List UInt8) :
    RResult (List UInt8 × List UInt8) :=
  let d := Decoder.new common
  match d.map with
  | (.ok (some n), d₁) =>
    match decodeCommonLoop n d₁ none none with
    | .ok (some components, some commands) => .ok (components, commands)
    | .ok _ => .err .InvalidCommonSection
    | .err e => .err e
    | .panicked => .panicked
  | (.ok none, _) => .err (.UnexpectedIndefiniteLength d.pos)
  | (.err e, _) => .err e
  | (.panicked, _) => .panicked

/-- One `OperatingHooks` method invocation, recorded in order by the
interpreter. -/
inductive HookEvent where
  | matchVendorId (u : Uuid) (c : Component)
  | matchClassId (u : Uuid) (c : Component)
  | matchDeviceId (u : Uuid) (c : Component)
  | matchComponentSlot (c : Component) (slot : Nat)
  | componentRead (c : Component) (slot : Option Nat) (offset len : Nat)
  | componentWrite (c : Component) (slot : Option Nat) (offset : Nat) (bytes : List UInt8)
  | componentSize (c : Component)
  | componentCapacity (c : Component)
deriving DecidableEq, Repr

/-- `OperatingHooks` (`src/lib.rs`): the integrator-supplied capability
interface, modelled as pure synchronous functions.  `component_read` is
given the length of the caller buffer and returns the bytes it filled
in.  The defaulted methods reproduce the source defaults (both report
`UnsupportedCommand(DeviceIdentifier)`, as `src/lib.rs` does). -/
structure OperatingHooks where
  readWriteBufferSize : Nat
  match_vendor_id : Uuid → Component → Except Error Bool
  match_class_id : Uuid → Component → Except Error Bool
  match_device_id : Uuid → Component → Except Error Bool :=
    fun _ _ => .error (.UnsupportedCommand SuitCommand.DeviceIdentifier.toInt)
  match_component_slot : Component → Nat → Except Error Bool :=
    fun _ _ => .error (.UnsupportedCommand SuitCommand.DeviceIdentifier.toInt)
  component_read : Component → Option Nat → Nat → Nat → Except Error (List UInt8)
  component_write : Component → Option Nat → Nat → List UInt8 → Except Error Unit
  component_size : Component → Except Error Nat
  component_capacity : Component → Except Error Nat

/-- The external hash oracle: algorithm and streamed input bytes to
digest output (the interpreter is parameterised by it; see the header
comment). -/
abbrev HashFn := SuitDigestAlgorithm → List UInt8 → List UInt8

/-- The type of the recursive sub-sequence runner threaded through the
interpreter (`self.process_sequence` in the source). -/
abbrev SeqRunner := List UInt8 → ManifestState → RResult ManifestState × List HookEvent

/-- `cond_vendor_identifier` (`src/manifest.rs`): require
`state.vendor_id` and ask the hook; a `false` answer is
`ConditionMatchFail(0)`, an unset parameter is `ParameterNotSet(0)`. -/
def cond_vendor_identifier (state : ManifestState) (component : Component)
    (hooks : OperatingHooks) : RResult Unit × List HookEvent :=
  match state.vendor_id with
  | some vendor_id =>
    match hooks.match_vendor_id vendor_id component with
    | .ok true => (.ok (), [.matchVendorId vendor_id component])
    | .ok false => (.err (.ConditionMatchFail 0), [.matchVendorId vendor_id component])
    | .error e => (.err e, [.matchVendorId vendor_id component])
  | none => (.err (.ParameterNotSet 0), [])

/-- `cond_class_identifier`. -/
def cond_class_identifier (state : ManifestState) (component : Component)
    (hooks : OperatingHooks) : RResult Unit × List HookEvent :=
  match state.class_id with
  | some class_id =>
    match hooks.match_class_id class_id component with
    | .ok true => (.ok (), [.matchClassId class_id component])
    | .ok false => (.err (.ConditionMatchFail 0), [.matchClassId class_id component])
    | .error e => (.err e, [.matchClassId class_id component])
  | none => (.err (.ParameterNotSet 0), [])

/-- `cond_device_identifier`. -/
def cond_device_identifier (state : ManifestState) (component : Component)
    (hooks : OperatingHooks) : RResult Unit × List HookEvent :=
  match state.device_id with
  | some device_id =>
    match hooks.match_device_id device_id component with
    | .ok true => (.ok (), [.matchDeviceId device_id component])
    | .ok false => (.err (.ConditionMatchFail 0), [.matchDeviceId device_id component])
    | .error e => (.err e, [.matchDeviceId device_id component])
  | none => (.err (.ParameterNotSet 0), [])

/-- `cond_component_slot`. -/
def cond_component_slot (state : ManifestState) (component : Component)
    (hooks : OperatingHooks) : RResult Unit × List HookEvent :=
  match state.component_slot with
  | some component_slot =>
    match hooks.match_component_slot component component_slot with
    | .ok true => (.ok (), [.matchComponentSlot component component_slot])
    | .ok false => (.err (.ConditionMatchFail 0), [.matchComponentSlot component component_slot])
    | .error e => (.err e, [.matchComponentSlot component component_slot])
  | none => (.err (.ParameterNotSet 0), [])

/-- The offset/read-size pairs visited by the
`(0..size).step_by(buf.len())` loop of `cond_image_match`. -/
def imageChunks (size bufLen : Nat) : List (Nat × Nat) :=
  (List.range ((size + bufLen - 1) / bufLen)).map
    (fun i => (i * bufLen, min (size - i * bufLen) bufLen))

/-- The chunked-read loop of `cond_image_match`: stream every chunk
through `component_read`, accumulating the hashed bytes. -/
def imageReadLoop (hooks : OperatingHooks) (component : Component) (slot : Option Nat) :
    List (Nat × Nat) → List UInt8 → RResult (List UInt8) × List HookEvent
  | [], acc => (.ok acc, [])
  | (offset, len) :: restChunks, acc =>
    match hooks.component_read component slot offset len with
    | .ok bs =>
      match imageReadLoop hooks component slot restChunks (acc ++ bs) with
      | (r, evs) => (r, .componentRead component slot offset len :: evs)
    | .error e => (.err e, [.componentRead component slot offset len])

/-- `cond_image_match` (`src/manifest.rs`): query the component size,
stream the component through the hash in `ReadWriteBufferSize` chunks
and compare with the stored digest.  A zero-sized read buffer makes the
`step_by(0)` of the source panic.  `match_hasher` always receives the hasher
built for its own algorithm, so only its comparison arm is
reachable. -/
def cond_image_match (hashFn : HashFn) (state : ManifestState) (component : Component)
    (hooks : OperatingHooks) : RResult Unit × List HookEvent :=
  match state.image_digest with
  | some digest =>
    match hooks.component_size component with
    | .error e => (.err e, [.componentSize component])
    | .ok size =>
      if hooks.readWriteBufferSize = 0 then (.panicked, [.componentSize component])
      else
        match imageReadLoop hooks component state.component_slot
            (imageChunks size hooks.readWriteBufferSize) [] with
        | (.ok data, evs) =>
          if digest.digest = hashFn digest.algo data then
            (.ok (), .componentSize component :: evs)
          else
            (.err (.ConditionMatchFail 0), .componentSize component :: evs)
        | (.err e, evs) => (.err e, .componentSize component :: evs)
        | (.panicked, evs) => (.panicked, .componentSize component :: evs)
  | none => (.err (.ParameterNotSet 0), [])

/-- `directive_write` (`src/manifest.rs`): write `state.content` at
offset 0 of the component. -/
def directive_write (state : ManifestState) (component : Component)
    (hooks : OperatingHooks) : RResult Unit × List HookEvent :=
  match state.content with
  | some content =>
    match hooks.component_write component state.component_slot 0 content with
    | .ok _ => (.ok (), [.componentWrite component state.component_slot 0 content])
    | .error e => (.err e, [.componentWrite component state.component_slot 0 content])
  | none => (.err (.ParameterNotSet 0), [])

/-- `enter_sequence` (`src/manifest.rs`): a command sequence is a
definite-length CBOR array of even length; the pair count is returned. -/
def enter_sequence (d : Decoder) : RResult Nat × Decoder :=
  match d.array with
  | (.ok (some n), d₁) =>
    if n % 2 = 1 then (.err (.InvalidCommandSequence d₁.pos), d₁)
    else (.ok (n / 2), d₁)
  | (.ok none, d₁) => (.err (.InvalidCommandSequence d₁.pos), d₁)
  | (.err e, d₁) => (.err e, d₁)
  | (.panicked, d₁) => (.panicked, d₁)

/-- Loop of `try_each` (`src/manifest.rs`) over
`array_iter::<&ByteSlice>`: an item that is not a byte string aborts
with its error (the `?` on the iterator item); an empty candidate is
unconditional success; otherwise the candidate runs on a clone of the
state — success adopts the resulting state and stops, failure discards
the clone and tries the next candidate.  When the candidates are
exhausted the result is `TryEachFail(position)` and the state is the
pre-`TryEach` one. -/
def tryEachLoop (runSeq : SeqRunner) :
    Nat → ManifestState → Decoder → RResult Unit × ManifestState × Decoder × List HookEvent
  | 0, s, d => (.err (.TryEachFail d.pos), s, d, [])
  | n + 1, s, d =>
    match d.bytes with
    | (.ok seq, d₁) =>
      if seq = [] then (.ok (), s, d₁, [])
      else
        match runSeq seq s with
        | (.ok s', evs) => (.ok (), s', d₁, evs)
        | (.err _, evs) =>
          match tryEachLoop runSeq n s d₁ with
          | (r, s₂, d₂, evs₂) => (r, s₂, d₂, evs ++ evs₂)
        | (.panicked, evs) => (.panicked, s, d₁, evs)
    | (.err e, d₁) => (.err e, s, d₁, [])
    | (.panicked, d₁) => (.panicked, s, d₁, [])

/-- `try_each` (`src/manifest.rs`).  `runSeq` is the recursive
`self.process_sequence` call, already applied to the hooks and the
component (the state argument of `runSeq` is the cloned `sub_state`). -/
def try_each (runSeq : SeqRunner) (s : ManifestState) (d : Decoder) :
    RResult Unit × ManifestState × Decoder × List HookEvent :=
  match d.array with
  | (.ok (some n), d₁) => tryEachLoop runSeq n s d₁
  | (.ok none, d₁) => (.err (.UnexpectedIndefiniteLength d.pos), s, d₁, [])
  | (.err e, d₁) => (.err e, s, d₁, [])
  | (.panicked, d₁) => (.panicked, s, d₁, [])

/-- Body of one iteration of the `process_sequence` loop
(`src/manifest.rs`, lines 306-363): the opcode has already been decoded.
When `match_component` is false only `SetComponentIndex` is interpreted
and the argument of every other opcode is skipped; when it is true the opcode
dispatch of the source runs (`todo!()` arms are `panicked`).  The result
carries the updated state, decoder, and `match_component` flag; a
condition decodes (and discards) its reporting policy after the hook
check, exactly as the source sequences the two calls. -/
def processStep (m : Manifest) (hooks : OperatingHooks) (hashFn : HashFn)
    (comp : ComponentInfo) (runSeq : SeqRunner) (command : SuitCommand)
    (match_component : Bool) (s : ManifestState) (d : Decoder) :
    RResult (ManifestState × Decoder × Bool) × List HookEvent :=
  if match_component = false then
    if command = .SetComponentIndex then
      match comp.in_applylist d with
      | (.ok mc, d₁) => (.ok (s, d₁, mc), [])
      | (.err e, _) => (.err e, [])
      | (.panicked, _) => (.panicked, [])
    else
      match d.skip with
      | (.ok _, d₁) => (.ok (s, d₁, match_component), [])
      | (.err e, _) => (.err e, [])
      | (.panicked, _) => (.panicked, [])
  else
    match command with
    | .Unset => (.err (.UnsupportedCommand SuitCommand.Unset.toInt), [])
    | .Abort => (.err (.ConditionMatchFail m.decoder.pos), [])
    | .OverrideParameters =>
      match s.update_parameter d with
      | (.ok _, s₁, d₁) => (.ok (s₁, d₁, true), [])
      | (.err e, _, _) => (.err e, [])
      | (.panicked, _, _) => (.panicked, [])
    | .SetComponentIndex =>
      match comp.in_applylist d with
      | (.ok mc, d₁) => (.ok (s, d₁, mc), [])
      | (.err e, _) => (.err e, [])
      | (.panicked, _) => (.panicked, [])
    | .CheckContent => (.panicked, [])
    | .ClassIdentifier =>
      match cond_class_identifier s comp.component hooks with
      | (.ok _, evs) =>
        match ReportingPolicy.decode d with
        | (.ok _, d₁) => (.ok (s, d₁, true), evs)
        | (.err e, _) => (.err e, evs)
        | (.panicked, _) => (.panicked, evs)
      | (.err e, evs) => (.err e, evs)
      | (.panicked, evs) => (.panicked, evs)
    | .ComponentSlot =>
      match cond_component_slot s comp.component hooks with
      | (.ok _, evs) =>
        match ReportingPolicy.decode d with
        | (.ok _, d₁) => (.ok (s, d₁, true), evs)
        | (.err e, _) => (.err e, evs)
        | (.panicked, _) => (.panicked, evs)
      | (.err e, evs) => (.err e, evs)
      | (.panicked, evs) => (.panicked, evs)
    | .Copy => (.panicked, [])
    | .DeviceIdentifier =>
      match cond_device_identifier s comp.component hooks with
      | (.ok _, evs) =>
        match ReportingPolicy.decode d with
        | (.ok _, d₁) => (.ok (s, d₁, true), evs)
        | (.err e, _) => (.err e, evs)
        | (.panicked, _) => (.panicked, evs)
      | (.err e, evs) => (.err e, evs)
      | (.panicked, evs) => (.panicked, evs)
    | .Fetch => (.panicked, [])
    | .ImageMatch =>
      match cond_image_match hashFn s comp.component hooks with
      | (.ok _, evs) =>
        match ReportingPolicy.decode d with
        | (.ok _, d₁) => (.ok (s, d₁, true), evs)
        | (.err e, _) => (.err e, evs)
        | (.panicked, _) => (.panicked, evs)
      | (.err e, evs) => (.err e, evs)
      | (.panicked, evs) => (.panicked, evs)
    | .Invoke => (.panicked, [])
    | .RunSequence => (.panicked, [])
    | .Swap => (.panicked, [])
    | .TryEach =>
      match try_each runSeq s d with
      | (.ok _, s₁, d₁, evs) => (.ok (s₁, d₁, true), evs)
      | (.err e, _, _, evs) => (.err e, evs)
      | (.panicked, _, _, evs) => (.panicked, evs)
    | .VendorIdentifier =>
      match cond_vendor_identifier s comp.component hooks with
      | (.ok _, evs) =>
        match ReportingPolicy.decode d with
        | (.ok _, d₁) => (.ok (s, d₁, true), evs)
        | (.err e, _) => (.err e, evs)
        | (.panicked, _) => (.panicked, evs)
      | (.err e, evs) => (.err e, evs)
      | (.panicked, evs) => (.panicked, evs)
    | .WriteContent =>
      match directive_write s comp.component hooks with
      | (.ok _, evs) =>
        match ReportingPolicy.decode d with
        | (.ok _, d₁) => (.ok (s, d₁, true), evs)
        | (.err e, _) => (.err e, evs)
        | (.panicked, _) => (.panicked, evs)
      | (.err e, evs) => (.err e, evs)
      | (.panicked, evs) => (.panicked, evs)
    | .Custom _ => (.panicked, [])

/-- The `for _ in 0..length` loop of `process_sequence`: decode an `i32`
opcode, run `processStep`, and continue with the updated state, decoder
and `match_component` flag. -/
def processCmds (m : Manifest) (hooks : OperatingHooks) (hashFn : HashFn)
    (comp : ComponentInfo) (runSeq : SeqRunner) :
    Nat → Bool → ManifestState → Decoder → RResult ManifestState × List HookEvent
  | 0, _, s, _ => (.ok s, [])
  | k + 1, match_component, s, d =>
    match d.i32 with
    | (.ok cmd, d₁) =>
      match processStep m hooks hashFn comp runSeq (SuitCommand.fromInt cmd)
          match_component s d₁ with
      | (.ok (s₁, d₂, mc), evs) =>
        match processCmds m hooks hashFn comp runSeq k mc s₁ d₂ with
        | (r, evs₂) => (r, evs ++ evs₂)
      | (.err e, evs) => (.err e, evs)
      | (.panicked, evs) => (.panicked, evs)
    | (.err e, _) => (.err e, [])
    | (.panicked, _) => (.panicked, [])

/-- `process_sequence` (`src/manifest.rs`), with explicit recursion
fuel: `fuel` bounds the nesting depth of `TryEach` sub-sequences (each
candidate byte string is strictly shorter than its enclosing sequence,
so `command_sequence.length + 1` always suffices; the `fuel = 0` case is
unreachable then and is marked `panicked`). -/
def processSequenceF (m : Manifest) (hooks : OperatingHooks) (hashFn : HashFn)
    (comp : ComponentInfo) :
    Nat → List UInt8 → ManifestState → RResult ManifestState × List HookEvent
  | 0, _, _ => (.panicked, [])
  | fuel + 1, command_sequence, state =>
    let d := Decoder.new command_sequence
    match enter_sequence d with
    | (.ok length, d₁) =>
      processCmds m hooks hashFn comp (processSequenceF m hooks hashFn comp fuel)
        length true state d₁
    | (.err e, _) => (.err e, [])
    | (.panicked, _) => (.panicked, [])

/-- `Manifest::process_sequence` at adequate fuel. -/
def Manifest.process_sequence (m : Manifest) (hooks : OperatingHooks) (hashFn : HashFn)
    (command_sequence : List UInt8) (state : ManifestState) (comp : ComponentInfo) :
    RResult ManifestState × List HookEvent :=
  processSequenceF m hooks hashFn comp (command_sequence.length + 1) command_sequence state

/-- The items yielded by `ComponentIter` (`array_iter::<Component>`) for
a definite-length array of `n` entries; after a failed item the
iteration continues from wherever the decoder stopped. -/
def componentItems : Nat → Decoder → List (RResult Component)
  | 0, _ => []
  | n + 1, d =>
    match Component.decode d with
    | (r, d₁) => r :: componentItems n d₁

/-- The `for (idx, component)` loop of `process_validate`
(`src/manifest.rs`, lines 373-382): `enumerate` counts every yielded
item, the `if let Ok(component)` silently skips items that failed to
decode, and the common command sequence runs on a fresh default state
for each successfully decoded component. -/
def processValidateItems (m : Manifest) (hooks : OperatingHooks) (hashFn : HashFn)
    (commands : List UInt8) :
    List (RResult Component) → Nat → RResult Unit × List HookEvent
  | [], _ => (.ok (), [])
  | .err _ :: restItems, idx => processValidateItems m hooks hashFn commands restItems (idx + 1)
  | .panicked :: _, _ => (.panicked, [])
  | .ok c :: restItems, idx =>
    if idx < 2 ^ 32 then
      match m.process_sequence hooks hashFn commands ManifestState.default ⟨c, idx⟩ with
      | (.ok _, evs) =>
        match processValidateItems m hooks hashFn commands restItems (idx + 1) with
        | (r, evs₂) => (r, evs ++ evs₂)
      | (.err e, evs) => (.err e, evs)
      | (.panicked, evs) => (.panicked, evs)
    else (.err (.UnexpectedCbor m.decoder.pos), [])

/-- `Manifest::process_validate` (`src/manifest.rs`). -/
def Manifest.process_validate (m : Manifest) (hooks : OperatingHooks) (hashFn : HashFn) :
    RResult Unit × List HookEvent :=
  match m.get_common with
  | .ok common =>
    match m.decode_common common with
    | .ok (components, commands) =>
      let d := Decoder.new components
      match d.array with
      | (.ok (some n), d₁) =>
        processValidateItems m hooks hashFn commands (componentItems n d₁) 0
      | (.ok none, _) => (.err (.UnexpectedIndefiniteLength d.pos), [])
      | (.err e, _) => (.err e, [])
      | (.panicked, _) => (.panicked, [])
    | .err e => (.err e, [])
    | .panicked => (.panicked, [])
  | .err e => (.err e, [])
  | .panicked => (.panicked, [])

/-- `SuitManifest` (`src/lib.rs`): the public cursor; the `New` and
`Authenticated` phantom tags have no runtime content, so one Lean type
stands for both. -/
structure SuitManifest where
  decoder : Decoder
deriving DecidableEq, Repr

/-- `SuitManifest::from_bytes`. -/
def SuitManifest.from_bytes (bytes : List UInt8) : SuitManifest := ⟨Decoder.new bytes⟩

/-- `SuitManifest::authenticate` (`src/lib.rs`, lines 92-97): rewrap the
same decoder under the `Authenticated` tag; no byte is inspected and no
runtime check is performed. -/
def SuitManifest.authenticate (m : SuitManifest) : RResult SuitManifest :=
  .ok ⟨m.decoder⟩

/-- Big-endian byte encoding of `n` on `k` bytes (truncating above
`256 ^ k`). -/
def beBytes : Nat → Nat → List UInt8
  | 0, _ => []
  | k + 1, n => UInt8.ofNat (n / 256 ^ k) :: beBytes k (n % 256 ^ k)

/-- Canonical (shortest-form, RFC 8949 section 4.2.1) CBOR head for
major type `major` with argument `n`. -/
def encHead (major n : Nat) : List UInt8 :=
  if n < 24 then [UInt8.ofNat (32 * major + n)]
  else if n < 256 then [UInt8.ofNat (32 * major + 24), UInt8.ofNat n]
  else if n < 65536 then UInt8.ofNat (32 * major + 25) :: beBytes 2 n
  else if n < 4294967296 then UInt8.ofNat (32 * major + 26) :: beBytes 4 n
  else UInt8.ofNat (32 * major + 27) :: beBytes 8 n

/-- Canonical encoding of an unsigned integer. -/
def encUint (n : Nat) : List UInt8 := encHead 0 n

/-- Canonical encoding of an integer (major 0 or major 1). -/
def encInt (v : Int) : List UInt8 :=
  if 0 ≤ v then encHead 0 v.toNat else encHead 1 (-1 - v).toNat

/-- Canonical encoding of a definite-length byte string. -/
def encBytes (bs : List UInt8) : List UInt8 := encHead 2 bs.length ++ bs

/-- Canonical encoding of a definite-length text string (given by its
UTF-8 bytes). -/
def encText (bs : List UInt8) : List UInt8 := encHead 3 bs.length ++ bs

/-- A manifest-map value as the data model allows them: an unsigned
integer, a byte string, or a text string (every SUIT manifest value is
one of these, each a single CBOR token). -/
inductive MVal where
  | vuint (n : Nat)
  | vbytes (bs : List UInt8)
  | vtext (bs : List UInt8)
deriving DecidableEq, Repr

/-- Canonical encoding of a manifest-map value. -/
def MVal.enc : MVal → List UInt8
  | .vuint n => encUint n
  | .vbytes bs => encBytes bs
  | .vtext bs => encText bs

/-- Well-formedness of a manifest-map value: integers fit `u64`, string
lengths fit the supported length headers, text is valid UTF-8. -/
def MVal.wf : MVal → Prop
  | .vuint n => n < 2 ^ 64
  | .vbytes bs => bs.length < 2 ^ 32
  | .vtext bs => utf8Valid bs = true ∧ bs.length < 2 ^ 32

/-- The token the minicbor `Token` decoder yields for a canonical
manifest-map value. -/
def MVal.token : MVal → Token
  | .vuint n =>
    if n < 256 then .tokU8 n
    else if n < 65536 then .tokU16 n
    else if n < 4294967296 then .tokU32 n
    else .tokU64 n
  | .vbytes bs => .tokBytes bs
  | .vtext bs => .tokString bs

/-- Canonical encoding of a manifest map from its entry list. -/
def encManifestMap (entries : List (Nat × MVal)) : List UInt8 :=
  encHead 5 entries.length ++ (entries.map (fun e => encUint e.1 ++ e.2.enc)).flatten

/-- A supported parameter-map entry in structured form (the shapes
`update_parameter` decodes without error). -/
inductive PEntry where
  | vendorId (u : List UInt8)
  | classId (u : List UInt8)
  | imageDigest (algo : SuitDigestAlgorithm) (hash : List UInt8)
  | componentSlot (n : Nat)
  | imageSize (n : Nat)
  | uri (bs : List UInt8)
  | deviceId (u : List UInt8)
deriving DecidableEq, Repr

/-- Well-formedness of a structured parameter entry. -/
def PEntry.wf : PEntry → Prop
  | .vendorId u => u.length = 16
  | .classId u => u.length = 16
  | .imageDigest _ hash => hash.length < 2 ^ 31
  | .componentSlot n => n < 2 ^ 64
  | .imageSize n => n < 2 ^ 64
  | .uri bs => utf8Valid bs = true ∧ bs.length < 2 ^ 32
  | .deviceId u => u.length = 16

/-- Canonical encoding of a structured parameter entry (key then
value; the digest value is a byte string wrapping `[i64 algo, bstr
hash]`). -/
def PEntry.enc : PEntry → List UInt8
  | .vendorId u => encUint 1 ++ encBytes u
  | .classId u => encUint 2 ++ encBytes u
  | .imageDigest algo hash =>
    encUint 3 ++ encBytes (encHead 4 2 ++ encInt algo.toInt ++ encBytes hash)
  | .componentSlot n => encUint 5 ++ encUint n
  | .imageSize n => encUint 14 ++ encUint n
  | .uri bs => encUint 21 ++ encText bs
  | .deviceId u => encUint 24 ++ encBytes u

/-- The effect of one decoded parameter entry on the state, exactly as
the source applies it — in particular `deviceId` goes through
`set_vendor_id`, reproducing `device_id_from_cbor`. -/
def PEntry.apply (s : ManifestState) : PEntry → ManifestState
  | .vendorId u => s.set_vendor_id ⟨u⟩
  | .classId u => s.set_class_id ⟨u⟩
  | .imageDigest algo hash => s.set_image_digest ⟨algo, hash⟩
  | .componentSlot n => s.set_component_slot n
  | .imageSize n => s.set_image_size n
  | .uri bs => s.set_uri bs
  | .deviceId u => s.set_vendor_id ⟨u⟩

/-- Parameter keys on which `update_parameter` neither dispatches a
setter nor reaches the `todo!()` arm: everything outside
`{1, 2, 3, 4, 5, 14, 21, 22, 24}`. -/
def unsupportedParamKey (n : Nat) : Prop :=
  n ∉ ([1, 2, 3, 4, 5, 14, 21, 22, 24] : List Nat)

/-- Canonical encoding of a `TryEach` argument: a definite array of
byte-string candidates. -/
def encBstrArray (cs : List (List UInt8)) : List UInt8 :=
  encHead 4 cs.length ++ (cs.map encBytes).flatten

/-- True iff the outcome is the error `ParameterNotSet` (any code). -/
def Error.isParamNotSet : Error → Bool
  | .ParameterNotSet _ => true
  | _ => false

/-- True iff the outcome carries a `ParameterNotSet` error. -/
def RResult.paramNotSetErr {α : Type} : RResult α → Bool
  | .err e => e.isParamNotSet
  | _ => false

/-- Concrete component `[0x81, 0x41, 0x00]` used by the concrete witnesses below
(the same component as the unit tests of the repository). -/
def demoComponent : Component := ⟨[0x81, 0x41, 0x00]⟩

/-- `demoComponent` at index 0. -/
def demoComp : ComponentInfo := ⟨demoComponent, 0⟩

/-- A manifest cursor over an empty buffer (only its `decoder.pos` is
observable in the theorems below, through `Abort`). -/
def demoManifest : Manifest := Manifest.from_bytes []

/-- A trivial hash oracle for concrete runs. -/
def demoHash : HashFn := fun _ _ => []

/-- The vendor UUID used by the unit tests of the repository. -/
def demoUuid : Uuid := ⟨[0xFA, 0x6B, 0x4A, 0x53, 0xD5, 0xAD, 0x5F, 0xDF,
  0xBE, 0x9D, 0xE6, 0x63, 0xE4, 0xD4, 0x1F, 0xFE]⟩

/-- A hooks implementation in the mould of the `TestHooks` of the repository:
every matcher accepts, reads return zero bytes, the component holds 128
bytes and the read buffer 64. -/
def demoHooks : OperatingHooks where
  readWriteBufferSize := 64
  match_vendor_id := fun _ _ => .ok true
  match_class_id := fun _ _ => .ok true
  match_device_id := fun _ _ => .ok true
  match_component_slot := fun _ _ => .ok true
  component_read := fun _ _ _ n => .ok (List.replicate n 0)
  component_write := fun _ _ _ _ => .ok ()
  component_size := fun _ => .ok 128
  component_capacity := fun _ => .ok 128

/-- `demoHooks` whose vendor matcher fails with a hook error. -/
def errHooks : OperatingHooks :=
  { demoHooks with match_vendor_id := fun _ _ => .error .CapacityError }

theorem toNat_ofNat_lt {n : Nat} (h : n < 256) : (UInt8.ofNat n).toNat = n := by
  unfold UInt8.ofNat UInt8.toNat
  simp [Fin.ofNat, Nat.mod_eq_of_lt h]

theorem read_cons (b : UInt8) (r : List UInt8) (p : Nat) :
    Decoder.read ⟨b :: r, p⟩ = (.ok b.toNat, ⟨r, p + 1⟩) := rfl

theorem readBE_beBytes (k : Nat) :
    ∀ (n : Nat) (suffix : List UInt8) (p : Nat), n < 256 ^ k →
    Decoder.readBE k ⟨beBytes k n ++ suffix, p⟩ = (.ok n, ⟨suffix, p + k⟩) := by
  induction k with
  | zero => intro n suffix p h; interval_cases n; rfl
  | succ k ih =>
    intro n suffix p h
    have hdiv : n / 256 ^ k < 256 :=
      Nat.div_lt_of_lt_mul (by rw [← pow_succ]; exact h)
    rw [beBytes]
    simp only [List.cons_append, Decoder.readBE, read_cons, toNat_ofNat_lt hdiv]
    rw [ih (n % 256 ^ k) suffix (p + 1) (Nat.mod_lt _ (by positivity))]
    have h2 : n / 256 ^ k * 256 ^ k + n % 256 ^ k = n := by
      rw [Nat.mul_comm]; exact Nat.div_add_mod n (256 ^ k)
    have h3 : p + 1 + k = p + (k + 1) := by omega
    simp [h2, h3]

theorem readSlice_append (bs suffix : List UInt8) (p : Nat) :
    Decoder.readSlice bs.length ⟨bs ++ suffix, p⟩ = (.ok bs, ⟨suffix, p + bs.length⟩) := by
  simp [Decoder.readSlice, List.take_left, List.drop_left]


theorem beBytes_length (k : Nat) : ∀ n, (beBytes k n).length = k := by
  induction k with
  | zero => intro n; rfl
  | succ k ih => intro n; simp [beBytes, ih]

theorem u8_encUint (n : Nat) (suffix : List UInt8) (p : Nat) (h : n < 256) :
    Decoder.u8 ⟨encUint n ++ suffix, p⟩ = (.ok n, ⟨suffix, p + (encUint n).length⟩) := by
  unfold encUint encHead
  by_cases h1 : n < 24
  · simp [h1, Decoder.u8, read_cons, toNat_ofNat_lt (show n < 256 by omega),
      show n ≤ 0x17 by omega]
  · simp [h1, h, Decoder.u8, read_cons, UInt8.size, toNat_ofNat_lt h]

theorem u16_encUint (n : Nat) (suffix : List UInt8) (p : Nat) (h : n < 65536) :
    Decoder.u16 ⟨encUint n ++ suffix, p⟩ = (.ok n, ⟨suffix, p + (encUint n).length⟩) := by
  unfold encUint encHead
  by_cases h1 : n < 24
  · simp [h1, Decoder.u16, read_cons, toNat_ofNat_lt (show n < 256 by omega),
      show n ≤ 0x17 by omega]
  by_cases h2 : n < 256
  · simp [h1, h2, Decoder.u16, read_cons, UInt8.size, toNat_ofNat_lt h2]
  · simp [h1, h2, h, Decoder.u16, read_cons, UInt8.size,
      readBE_beBytes 2 n suffix (p + 1) (by omega), beBytes_length]

theorem u32_encUint (n : Nat) (suffix : List UInt8) (p : Nat) (h : n < 4294967296) :
    Decoder.u32 ⟨encUint n ++ suffix, p⟩ = (.ok n, ⟨suffix, p + (encUint n).length⟩) := by
  unfold encUint encHead
  by_cases h1 : n < 24
  · simp [h1, Decoder.u32, read_cons, toNat_ofNat_lt (show n < 256 by omega),
      show n ≤ 0x17 by omega]
  by_cases h2 : n < 256
  · simp [h1, h2, Decoder.u32, read_cons, UInt8.size, toNat_ofNat_lt h2]
  by_cases h3 : n < 65536
  · simp [h1, h2, h3, Decoder.u32, read_cons, UInt8.size,
      readBE_beBytes 2 n suffix (p + 1) (by omega), beBytes_length]
  · simp [h1, h2, h3, h, Decoder.u32, read_cons, UInt8.size,
      readBE_beBytes 4 n suffix (p + 1) (by omega), beBytes_length]

theorem u64_encUint (n : Nat) (suffix : List UInt8) (p : Nat) (h : n < 2 ^ 64) :
    Decoder.u64 ⟨encUint n ++ suffix, p⟩ = (.ok n, ⟨suffix, p + (encUint n).length⟩) := by
  unfold encUint encHead
  by_cases h1 : n < 24
  · simp [h1, Decoder.u64, read_cons, toNat_ofNat_lt (show n < 256 by omega),
      show n ≤ 0x17 by omega]
  by_cases h2 : n < 256
  · simp [h1, h2, Decoder.u64, read_cons, UInt8.size, toNat_ofNat_lt h2]
  by_cases h3 : n < 65536
  · simp [h1, h2, h3, Decoder.u64, read_cons, UInt8.size,
      readBE_beBytes 2 n suffix (p + 1) (by omega), beBytes_length]
  by_cases h4 : n < 4294967296
  · simp [h1, h2, h3, h4, Decoder.u64, read_cons, UInt8.size,
      readBE_beBytes 4 n suffix (p + 1) (by omega), beBytes_length]
  · simp [h1, h2, h3, h4, Decoder.u64, read_cons, UInt8.size,
      readBE_beBytes 8 n suffix (p + 1) (by omega), beBytes_length]

theorem i16_encUint_small (n : Nat) (suffix : List UInt8) (p : Nat) (h : n < 24) :
    Decoder.i16 ⟨encUint n ++ suffix, p⟩ = (.ok (n : Int), ⟨suffix, p + 1⟩) := by
  unfold encUint encHead
  simp [h, Decoder.i16, read_cons, toNat_ofNat_lt (show n < 256 by omega),
    show n ≤ 0x17 by omega]

theorem i32_encUint (n : Nat) (suffix : List UInt8) (p : Nat) (h : n < 2 ^ 31) :
    Decoder.i32 ⟨encUint n ++ suffix, p⟩ = (.ok (n : Int), ⟨suffix, p + (encUint n).length⟩) := by
  unfold encUint encHead
  by_cases h1 : n < 24
  · simp [h1, Decoder.i32, read_cons, toNat_ofNat_lt (show n < 256 by omega),
      show n ≤ 0x17 by omega]
  by_cases h2 : n < 256
  · simp [h1, h2, Decoder.i32, read_cons, UInt8.size, toNat_ofNat_lt h2, RResult.mapOk]
  by_cases h3 : n < 65536
  · simp [h1, h2, h3, Decoder.i32, read_cons, UInt8.size, RResult.mapOk,
      readBE_beBytes 2 n suffix (p + 1) (by omega), beBytes_length]
  · simp [h1, h2, h3, show n < 4294967296 by omega, Decoder.i32, read_cons, UInt8.size,
      readBE_beBytes 4 n suffix (p + 1) (by omega), beBytes_length, RResult.mapOk,
      show n ≤ 0x7fffffff by omega]

theorem i64_encInt_negSmall (m : Nat) (suffix : List UInt8) (p : Nat) (h : m < 256) :
    Decoder.i64 ⟨encInt (-1 - (m : Int)) ++ suffix, p⟩ =
      (.ok (-1 - (m : Int)), ⟨suffix, p + (encInt (-1 - (m : Int))).length⟩) := by
  unfold encInt encHead
  have hv : ¬ ((0 : Int) ≤ -1 - (m : Int)) := by omega
  have htn : (-1 - (-1 - (m : Int))).toNat = m := by omega
  by_cases h1 : m < 24
  · simp [hv, htn, h1, Decoder.i64, read_cons,
      toNat_ofNat_lt (show 32 * 1 + m < 256 by omega),
      show ¬ (32 * 1 + m ≤ 0x17) by omega, show 0x20 ≤ 32 * 1 + m by omega,
      show 32 * 1 + m ≤ 0x37 by omega, show 32 * 1 + m - 0x20 = m by omega,
      show 32 * 1 + m ≠ 24 by omega, show 32 * 1 + m ≠ 25 by omega,
      show 32 * 1 + m ≠ 26 by omega, show 32 * 1 + m ≠ 27 by omega]
  · simp [hv, htn, h1, h, Decoder.i64, read_cons, UInt8.size, toNat_ofNat_lt h,
      RResult.mapOk]

theorem datatype_encUint (n : Nat) (suffix : List UInt8) (p : Nat) :
    Decoder.datatype ⟨encUint n ++ suffix, p⟩ =
      .ok (if n < 256 then .tU8 else if n < 65536 then .tU16
           else if n < 4294967296 then .tU32 else .tU64) := by
  unfold encUint encHead Decoder.datatype
  by_cases h1 : n < 24
  · simp [h1, show n < 256 by omega, toNat_ofNat_lt (show n < 256 by omega),
      show n ≤ 0x18 by omega]
  by_cases h2 : n < 256
  · simp [h1, h2, UInt8.size]
  by_cases h3 : n < 65536
  · simp [h1, h2, h3, UInt8.size]
  by_cases h4 : n < 4294967296
  · simp [h1, h2, h3, h4, UInt8.size]
  · simp [h1, h2, h3, h4, UInt8.size]

theorem bool_true_cons (r : List UInt8) (p : Nat) :
    Decoder.bool ⟨(0xf5 : UInt8) :: r, p⟩ = (.ok true, ⟨r, p + 1⟩) := by
  simp [Decoder.bool, read_cons, UInt8.size]

theorem bool_false_cons (r : List UInt8) (p : Nat) :
    Decoder.bool ⟨(0xf4 : UInt8) :: r, p⟩ = (.ok false, ⟨r, p + 1⟩) := by
  simp [Decoder.bool, read_cons, UInt8.size]

theorem bytes_encBytes (bs suffix : List UInt8) (p : Nat) (h : bs.length < 2 ^ 32) :
    Decoder.bytes ⟨encBytes bs ++ suffix, p⟩ = (.ok bs, ⟨suffix, p + (encBytes bs).length⟩) := by
  unfold encBytes encHead
  by_cases h1 : bs.length < 24
  · have hb : (32 * 2 + bs.length) < 256 := by omega
    simp only [h1, if_pos, List.cons_append, List.singleton_append, List.append_assoc]
    simp [Decoder.bytes, read_cons, toNat_ofNat_lt hb,
      show 0x40 ≤ 32 * 2 + bs.length by omega, show 32 * 2 + bs.length ≤ 0x57 by omega,
      show ¬ (32 * 2 + bs.length ≤ 0x17) by omega,
      show 32 * 2 + bs.length - 0x40 = bs.length by omega,
      readSlice_append bs suffix (p + 1)]
    omega
  by_cases h2 : bs.length < 256
  · simp only [h1, h2, if_neg, if_pos, List.cons_append, List.append_assoc]
    simp [Decoder.bytes, read_cons, UInt8.size, toNat_ofNat_lt h2,
      readSlice_append bs suffix (p + 2)]
    omega
  by_cases h3 : bs.length < 65536
  · simp only [h1, h2, h3, if_neg, if_pos, List.cons_append, List.append_assoc]
    simp [Decoder.bytes, read_cons, UInt8.size,
      readBE_beBytes 2 bs.length (bs ++ suffix) (p + 1) (by omega), beBytes_length,
      readSlice_append bs suffix (p + 3)]
    omega
  · simp only [h1, h2, h3, show bs.length < 4294967296 by omega, if_neg, if_pos,
      List.cons_append, List.append_assoc]
    simp [Decoder.bytes, read_cons, UInt8.size,
      readBE_beBytes 4 bs.length (bs ++ suffix) (p + 1) (by omega), beBytes_length,
      readSlice_append bs suffix (p + 5)]
    omega

theorem str_encText (bs suffix : List UInt8) (p : Nat) (hu : utf8Valid bs = true)
    (h : bs.length < 2 ^ 32) :
    Decoder.str ⟨encText bs ++ suffix, p⟩ = (.ok bs, ⟨suffix, p + (encText bs).length⟩) := by
  unfold encText encHead
  by_cases h1 : bs.length < 24
  · have hb : (32 * 3 + bs.length) < 256 := by omega
    simp only [h1, if_pos, List.cons_append, List.singleton_append, List.append_assoc]
    simp [Decoder.str, read_cons, toNat_ofNat_lt hb, hu,
      show 0x60 ≤ 32 * 3 + bs.length by omega, show 32 * 3 + bs.length ≤ 0x77 by omega,
      show 32 * 3 + bs.length - 0x60 = bs.length by omega,
      readSlice_append bs suffix (p + 1)]
    omega
  by_cases h2 : bs.length < 256
  · simp only [h1, h2, if_neg, if_pos, List.cons_append, List.append_assoc]
    simp [Decoder.str, read_cons, UInt8.size, toNat_ofNat_lt h2, hu,
      readSlice_append bs suffix (p + 2)]
    omega
  by_cases h3 : bs.length < 65536
  · simp only [h1, h2, h3, if_neg, if_pos, List.cons_append, List.append_assoc]
    simp [Decoder.str, read_cons, UInt8.size, hu,
      readBE_beBytes 2 bs.length (bs ++ suffix) (p + 1) (by omega), beBytes_length,
      readSlice_append bs suffix (p + 3)]
    omega
  · simp only [h1, h2, h3, show bs.length < 4294967296 by omega, if_neg, if_pos,
      List.cons_append, List.append_assoc]
    simp [Decoder.str, read_cons, UInt8.size, hu,
      readBE_beBytes 4 bs.length (bs ++ suffix) (p + 1) (by omega), beBytes_length,
      readSlice_append bs suffix (p + 5)]
    omega

theorem array_encHead (n : Nat) (suffix : List UInt8) (p : Nat) (h : n < 2 ^ 64) :
    Decoder.array ⟨encHead 4 n ++ suffix, p⟩ =
      (.ok (some n), ⟨suffix, p + (encHead 4 n).length⟩) := by
  unfold encHead
  by_cases h1 : n < 24
  · simp [h1, Decoder.array, read_cons, toNat_ofNat_lt (show 32 * 4 + n < 256 by omega),
      show 0x80 ≤ 32 * 4 + n by omega, show 32 * 4 + n ≤ 0x97 by omega,
      show 32 * 4 + n - 0x80 = n by omega]
  by_cases h2 : n < 256
  · simp [h1, h2, Decoder.array, read_cons, UInt8.size, toNat_ofNat_lt h2, RResult.mapOk]
  by_cases h3 : n < 65536
  · simp [h1, h2, h3, Decoder.array, read_cons, UInt8.size, RResult.mapOk,
      readBE_beBytes 2 n suffix (p + 1) (by omega), beBytes_length]
  by_cases h4 : n < 4294967296
  · simp [h1, h2, h3, h4, Decoder.array, read_cons, UInt8.size, RResult.mapOk,
      readBE_beBytes 4 n suffix (p + 1) (by omega), beBytes_length]
  · simp [h1, h2, h3, h4, Decoder.array, read_cons, UInt8.size, RResult.mapOk,
      readBE_beBytes 8 n suffix (p + 1) (by omega), beBytes_length]

theorem map_encHead (n : Nat) (suffix : List UInt8) (p : Nat) (h : n < 2 ^ 64) :
    Decoder.map ⟨encHead 5 n ++ suffix, p⟩ =
      (.ok (some n), ⟨suffix, p + (encHead 5 n).length⟩) := by
  unfold encHead
  by_cases h1 : n < 24
  · simp [h1, Decoder.map, read_cons, toNat_ofNat_lt (show 32 * 5 + n < 256 by omega),
      show 0xa0 ≤ 32 * 5 + n by omega, show 32 * 5 + n ≤ 0xb7 by omega,
      show 32 * 5 + n - 0xa0 = n by omega]
  by_cases h2 : n < 256
  · simp [h1, h2, Decoder.map, read_cons, UInt8.size, toNat_ofNat_lt h2, RResult.mapOk]
  by_cases h3 : n < 65536
  · simp [h1, h2, h3, Decoder.map, read_cons, UInt8.size, RResult.mapOk,
      readBE_beBytes 2 n suffix (p + 1) (by omega), beBytes_length]
  by_cases h4 : n < 4294967296
  · simp [h1, h2, h3, h4, Decoder.map, read_cons, UInt8.size, RResult.mapOk,
      readBE_beBytes 4 n suffix (p + 1) (by omega), beBytes_length]
  · simp [h1, h2, h3, h4, Decoder.map, read_cons, UInt8.size, RResult.mapOk,
      readBE_beBytes 8 n suffix (p + 1) (by omega), beBytes_length]

theorem datatype_encBytes (bs : List UInt8) (suffix : List UInt8) (p : Nat)
    (h : bs.length < 2 ^ 32) :
    Decoder.datatype ⟨encBytes bs ++ suffix, p⟩ = .ok .tBytes := by
  unfold encBytes encHead Decoder.datatype
  by_cases h1 : bs.length < 24
  · simp [h1, toNat_ofNat_lt (show 32 * 2 + bs.length < 256 by omega),
      show ¬ (32 * 2 + bs.length ≤ 0x18) by omega,
      show 32 * 2 + bs.length ≠ 0x19 by omega, show 32 * 2 + bs.length ≠ 0x1a by omega,
      show 32 * 2 + bs.length ≠ 0x1b by omega,
      show ¬ (32 * 2 + bs.length ≤ 0x38 ∧ 0x20 ≤ 32 * 2 + bs.length) by omega,
      show 32 * 2 + bs.length ≠ 0x39 by omega, show 32 * 2 + bs.length ≠ 0x3a by omega,
      show 32 * 2 + bs.length ≠ 0x3b by omega,
      show 0x40 ≤ 32 * 2 + bs.length by omega, show 32 * 2 + bs.length ≤ 0x5b by omega]
  by_cases h2 : bs.length < 256
  · simp [h1, h2, UInt8.size]
  by_cases h3 : bs.length < 65536
  · simp [h1, h2, h3, UInt8.size]
  · simp [h1, h2, h3, show bs.length < 4294967296 by omega, UInt8.size]

theorem datatype_encText (bs : List UInt8) (suffix : List UInt8) (p : Nat)
    (h : bs.length < 2 ^ 32) :
    Decoder.datatype ⟨encText bs ++ suffix, p⟩ = .ok .tString := by
  unfold encText encHead Decoder.datatype
  by_cases h1 : bs.length < 24
  · simp [h1, toNat_ofNat_lt (show 32 * 3 + bs.length < 256 by omega),
      show ¬ (32 * 3 + bs.length ≤ 0x18) by omega,
      show 32 * 3 + bs.length ≠ 0x19 by omega, show 32 * 3 + bs.length ≠ 0x1a by omega,
      show 32 * 3 + bs.length ≠ 0x1b by omega,
      show ¬ (32 * 3 + bs.length ≤ 0x38 ∧ 0x20 ≤ 32 * 3 + bs.length) by omega,
      show 32 * 3 + bs.length ≠ 0x39 by omega, show 32 * 3 + bs.length ≠ 0x3a by omega,
      show 32 * 3 + bs.length ≠ 0x3b by omega,
      show ¬ (0x40 ≤ 32 * 3 + bs.length ∧ 32 * 3 + bs.length ≤ 0x5b) by omega,
      show 32 * 3 + bs.length ≠ 0x5f by omega,
      show 0x60 ≤ 32 * 3 + bs.length by omega, show 32 * 3 + bs.length ≤ 0x7b by omega]
  by_cases h2 : bs.length < 256
  · simp [h1, h2, UInt8.size]
  by_cases h3 : bs.length < 65536
  · simp [h1, h2, h3, UInt8.size]
  · simp [h1, h2, h3, show bs.length < 4294967296 by omega, UInt8.size]

theorem token_decode_MVal (v : MVal) (suffix : List UInt8) (p : Nat) (hwf : v.wf) :
    Token.decode ⟨v.enc ++ suffix, p⟩ = (.ok v.token, ⟨suffix, p + v.enc.length⟩) := by
  cases v with
  | vuint n =>
    simp only [MVal.enc, MVal.token, MVal.wf] at *
    by_cases h1 : n < 256
    · simp [Token.decode, datatype_encUint, h1, u8_encUint n suffix p h1, RResult.mapOk]
    by_cases h2 : n < 65536
    · simp [Token.decode, datatype_encUint, h1, h2, u16_encUint n suffix p h2, RResult.mapOk]
    by_cases h3 : n < 4294967296
    · simp [Token.decode, datatype_encUint, h1, h2, h3, u32_encUint n suffix p h3,
        RResult.mapOk]
    · simp [Token.decode, datatype_encUint, h1, h2, h3, u64_encUint n suffix p hwf,
        RResult.mapOk]
  | vbytes bs =>
    simp only [MVal.enc, MVal.token, MVal.wf] at *
    simp [Token.decode, datatype_encBytes bs suffix p hwf, bytes_encBytes bs suffix p hwf,
      RResult.mapOk]
  | vtext bs =>
    simp only [MVal.enc, MVal.token, MVal.wf] at *
    simp [Token.decode, datatype_encText bs suffix p hwf.2,
      str_encText bs suffix p hwf.1 hwf.2, RResult.mapOk]

theorem uuid_decode16_encBytes (u suffix : List UInt8) (p : Nat) (h : u.length = 16) :
    Uuid.decode16 ⟨encBytes u ++ suffix, p⟩ =
      (.ok ⟨u⟩, ⟨suffix, p + (encBytes u).length⟩) := by
  simp [Uuid.decode16, bytes_encBytes u suffix p (by omega), h]

theorem suitDigest_decode_enc (a : SuitDigestAlgorithm) (hash suffix : List UInt8) (p : Nat)
    (h : hash.length < 2 ^ 32) :
    SuitDigest.decode ⟨(encHead 4 2 ++ encInt a.toInt ++ encBytes hash) ++ suffix, p⟩ =
      (.ok ⟨a, hash⟩,
        ⟨suffix, p + (encHead 4 2 ++ encInt a.toInt ++ encBytes hash).length⟩) := by
  have e1 : encHead 4 2 = [UInt8.ofNat 130] := rfl
  cases a
  case Sha256 =>
    have e2 : encInt ((-16 : Int)) = [UInt8.ofNat 47] := by decide
    simp only [SuitDigestAlgorithm.toInt, e1, e2, List.append_assoc, List.cons_append,
      List.singleton_append]
    simp [SuitDigest.decode, Decoder.array, Decoder.i64, read_cons, UInt8.size,
      bytes_encBytes hash suffix (p + 2) h, SuitDigestAlgorithm.tryFrom]
    omega
  case Shake128 =>
    have e2 : encInt ((-18 : Int)) = [UInt8.ofNat 49] := by decide
    simp only [SuitDigestAlgorithm.toInt, e1, e2, List.append_assoc, List.cons_append,
      List.singleton_append]
    simp [SuitDigest.decode, Decoder.array, Decoder.i64, read_cons, UInt8.size,
      bytes_encBytes hash suffix (p + 2) h, SuitDigestAlgorithm.tryFrom]
    omega
  case Sha384 =>
    have e2 : encInt ((-43 : Int)) = [UInt8.ofNat 56, UInt8.ofNat 42] := by decide
    simp only [SuitDigestAlgorithm.toInt, e1, e2, List.append_assoc, List.cons_append,
      List.singleton_append]
    simp [SuitDigest.decode, Decoder.array, Decoder.i64, read_cons, UInt8.size, RResult.mapOk,
      bytes_encBytes hash suffix (p + 3) h, SuitDigestAlgorithm.tryFrom]
    omega
  case Sha512 =>
    have e2 : encInt ((-44 : Int)) = [UInt8.ofNat 56, UInt8.ofNat 43] := by decide
    simp only [SuitDigestAlgorithm.toInt, e1, e2, List.append_assoc, List.cons_append,
      List.singleton_append]
    simp [SuitDigest.decode, Decoder.array, Decoder.i64, read_cons, UInt8.size, RResult.mapOk,
      bytes_encBytes hash suffix (p + 3) h, SuitDigestAlgorithm.tryFrom]
    omega
  case Shake256 =>
    have e2 : encInt ((-45 : Int)) = [UInt8.ofNat 56, UInt8.ofNat 44] := by decide
    simp only [SuitDigestAlgorithm.toInt, e1, e2, List.append_assoc, List.cons_append,
      List.singleton_append]
    simp [SuitDigest.decode, Decoder.array, Decoder.i64, read_cons, UInt8.size, RResult.mapOk,
      bytes_encBytes hash suffix (p + 3) h, SuitDigestAlgorithm.tryFrom]
    omega

theorem encHead_length (major n : Nat) :
    (encHead major n).length =
      if n < 24 then 1 else if n < 256 then 2 else if n < 65536 then 3
      else if n < 4294967296 then 5 else 9 := by
  unfold encHead
  split_ifs <;> simp [beBytes_length]

theorem update_parameter_loop_step (e : PEntry) (k : Nat) (s : ManifestState)
    (rest : List UInt8) (p : Nat) (hwf : e.wf) :
    ManifestState.update_parameter_loop (k + 1) s ⟨e.enc ++ rest, p⟩ =
      ManifestState.update_parameter_loop k (e.apply s) ⟨rest, p + e.enc.length⟩ := by
  cases e with
  | vendorId u =>
    simp only [PEntry.enc, PEntry.apply, PEntry.wf] at *
    simp only [List.append_assoc, ManifestState.update_parameter_loop]
    rw [i32_encUint 1 (encBytes u ++ rest) p (by norm_num)]
    simp only [SuitParameter.tryFrom]
    norm_num
    simp only [ManifestState.vendor_id_from_cbor,
      uuid_decode16_encBytes u rest (p + (encUint 1).length) hwf]
    simp [List.length_append, Nat.add_assoc]
  | classId u =>
    simp only [PEntry.enc, PEntry.apply, PEntry.wf] at *
    simp only [List.append_assoc, ManifestState.update_parameter_loop]
    rw [i32_encUint 2 (encBytes u ++ rest) p (by norm_num)]
    simp only [SuitParameter.tryFrom]
    norm_num
    simp only [ManifestState.class_id_from_cbor,
      uuid_decode16_encBytes u rest (p + (encUint 2).length) hwf]
    simp [List.length_append, Nat.add_assoc]
  | imageDigest algo hash =>
    simp only [PEntry.enc, PEntry.apply, PEntry.wf] at *
    have hnew : SuitDigest.decode
        (Decoder.new (encHead 4 2 ++ encInt algo.toInt ++ encBytes hash)) =
        (.ok ⟨algo, hash⟩,
          ⟨[], (encHead 4 2 ++ encInt algo.toInt ++ encBytes hash).length⟩) := by
      have h2 := suitDigest_decode_enc algo hash [] 0 (by omega)
      simpa [Decoder.new] using h2
    have hlen : (encHead 4 2 ++ encInt algo.toInt ++ encBytes hash).length < 2 ^ 32 := by
      have h1 := encHead_length 2 hash.length
      have h2 : (encInt algo.toInt).length ≤ 2 := by
        cases algo <;> simp [SuitDigestAlgorithm.toInt, encInt, encHead]
      simp only [List.length_append, encBytes, h1, encHead]
      split_ifs <;> simp_all [beBytes_length] <;> omega
    set P := encHead 4 2 ++ encInt algo.toInt ++ encBytes hash with hP
    simp only [List.append_assoc, ManifestState.update_parameter_loop]
    rw [i32_encUint 3 (encBytes P ++ rest) p (by norm_num)]
    simp only [SuitParameter.tryFrom]
    norm_num
    simp only [ManifestState.image_digest_from_cbor,
      bytes_encBytes P rest (p + (encUint 3).length) hlen, hnew]
    simp [List.length_append, Nat.add_assoc]
  | componentSlot n =>
    simp only [PEntry.enc, PEntry.apply, PEntry.wf] at *
    simp only [List.append_assoc, ManifestState.update_parameter_loop]
    rw [i32_encUint 5 (encUint n ++ rest) p (by norm_num)]
    simp only [SuitParameter.tryFrom]
    norm_num
    simp only [ManifestState.component_slot_from_cbor,
      u64_encUint n rest (p + (encUint 5).length) hwf]
    simp [List.length_append, Nat.add_assoc]
  | imageSize n =>
    simp only [PEntry.enc, PEntry.apply, PEntry.wf] at *
    simp only [List.append_assoc, ManifestState.update_parameter_loop]
    rw [i32_encUint 14 (encUint n ++ rest) p (by norm_num)]
    simp only [SuitParameter.tryFrom]
    norm_num
    simp only [ManifestState.image_size_from_cbor,
      u64_encUint n rest (p + (encUint 14).length) hwf]
    simp [List.length_append, Nat.add_assoc]
  | uri bs =>
    simp only [PEntry.enc, PEntry.apply, PEntry.wf] at *
    simp only [List.append_assoc, ManifestState.update_parameter_loop]
    rw [i32_encUint 21 (encText bs ++ rest) p (by norm_num)]
    simp only [SuitParameter.tryFrom]
    norm_num
    simp only [ManifestState.uri_from_cbor,
      str_encText bs rest (p + (encUint 21).length) hwf.1 hwf.2]
    simp [List.length_append, Nat.add_assoc]
  | deviceId u =>
    simp only [PEntry.enc, PEntry.apply, PEntry.wf] at *
    simp only [List.append_assoc, ManifestState.update_parameter_loop]
    rw [i32_encUint 24 (encBytes u ++ rest) p (by norm_num)]
    simp only [SuitParameter.tryFrom]
    norm_num
    simp only [ManifestState.device_id_from_cbor,
      uuid_decode16_encBytes u rest (p + (encUint 24).length) hwf]
    simp [List.length_append, Nat.add_assoc]

theorem update_parameter_loop_badkey (n k : Nat) (s : ManifestState)
    (rest : List UInt8) (p : Nat) (hn : n < 2 ^ 31) (hbad : unsupportedParamKey n) :
    ManifestState.update_parameter_loop (k + 1) s ⟨encUint n ++ rest, p⟩ =
      (.err (.UnsupportedParameter (n : Int)), s, ⟨rest, p + (encUint n).length⟩) := by
  unfold unsupportedParamKey at hbad
  simp only [List.mem_cons, List.not_mem_nil] at hbad
  push_neg at hbad
  obtain ⟨q1, q2, q3, q4, q5, q14, q21, q22, q24⟩ := hbad
  simp only [ManifestState.update_parameter_loop]
  rw [i32_encUint n rest p hn]
  by_cases c0 : n = 0
  · subst c0; simp [SuitParameter.tryFrom, SuitParameter.toInt]
  by_cases c12 : n = 12
  · subst c12; simp [SuitParameter.tryFrom, SuitParameter.toInt]
  by_cases c13 : n = 13
  · subst c13; simp [SuitParameter.tryFrom, SuitParameter.toInt]
  by_cases c18 : n = 18
  · subst c18; simp [SuitParameter.tryFrom, SuitParameter.toInt]
  by_cases c23 : n = 23
  · subst c23; simp [SuitParameter.tryFrom, SuitParameter.toInt]
  · simp [SuitParameter.tryFrom,
      show (n : Int) ≠ 0 by omega, show (n : Int) ≠ 1 by omega,
      show (n : Int) ≠ 2 by omega, show (n : Int) ≠ 3 by omega,
      show (n : Int) ≠ 4 by omega, show (n : Int) ≠ 5 by omega,
      show (n : Int) ≠ 12 by omega, show (n : Int) ≠ 13 by omega,
      show (n : Int) ≠ 14 by omega, show (n : Int) ≠ 18 by omega,
      show (n : Int) ≠ 21 by omega, show (n : Int) ≠ 22 by omega,
      show (n : Int) ≠ 23 by omega, show (n : Int) ≠ 24 by omega]

theorem update_parameter_loop_firstBad (good : List PEntry) :
    ∀ (s : ManifestState) (k n : Nat) (junk : List UInt8) (p : Nat),
    (∀ e ∈ good, e.wf) → n < 2 ^ 31 → unsupportedParamKey n →
    ManifestState.update_parameter_loop (good.length + (k + 1)) s
        ⟨(good.map PEntry.enc).flatten ++ encUint n ++ junk, p⟩ =
      (.err (.UnsupportedParameter (n : Int)), good.foldl PEntry.apply s,
        ⟨junk, p + ((good.map PEntry.enc).flatten).length + (encUint n).length⟩) := by
  induction good with
  | nil =>
    intro s k n junk p _ hn hbad
    simpa using update_parameter_loop_badkey n k s junk p hn hbad
  | cons e good ih =>
    intro s k n junk p hwf hn hbad
    have hlen : (e :: good).length + (k + 1) = (good.length + (k + 1)) + 1 := by
      simp [List.length_cons]; omega
    rw [hlen]
    simp only [List.map_cons, List.flatten_cons, List.append_assoc]
    rw [show e.enc ++ ((good.map PEntry.enc).flatten ++ (encUint n ++ junk)) =
      e.enc ++ ((good.map PEntry.enc).flatten ++ encUint n ++ junk) by simp]
    rw [update_parameter_loop_step e _ s _ p (hwf e (by simp))]
    rw [ih (e.apply s) k n junk (p + e.enc.length) (fun x hx => hwf x (by simp [hx])) hn hbad]
    simp [List.foldl_cons, List.length_append]
    omega

/-- Claim C10: `update_parameter` is not atomic on error.  For every
starting state and every run of well-formed entries followed by an
unsupported key (with arbitrary declared surplus length and trailing
bytes), the call fails with `UnsupportedParameter` while the returned
state is the fold of all entries decoded before the failure — the
partial updates persist and are not rolled back. -/
theorem claim_C10 (s : ManifestState) (good : List PEntry) (n extra : Nat)
    (junk : List UInt8)
    (hwf : ∀ e ∈ good, e.wf) (hn : n < 2 ^ 31) (hbad : unsupportedParamKey n)
    (hc : good.length + 1 + extra < 2 ^ 64) :
    ManifestState.update_parameter s
        (Decoder.new (encHead 5 (good.length + 1 + extra) ++
          ((good.map PEntry.enc).flatten ++ (encUint n ++ junk)))) =
      (.err (.UnsupportedParameter (n : Int)), good.foldl PEntry.apply s,
        ⟨junk, (encHead 5 (good.length + 1 + extra)).length +
          ((good.map PEntry.enc).flatten).length + (encUint n).length⟩) := by
  unfold ManifestState.update_parameter Decoder.new
  rw [map_encHead (good.length + 1 + extra) _ 0 hc]
  rw [show good.length + 1 + extra = good.length + (extra + 1) by omega]
  rw [show (good.map PEntry.enc).flatten ++ (encUint n ++ junk) =
    (good.map PEntry.enc).flatten ++ encUint n ++ junk by simp]
  dsimp only
  rw [update_parameter_loop_firstBad good s extra n junk _ hwf hn hbad]
  simp only [Nat.zero_add]

/-- Claim C10, witness: a vendor-id entry followed by the unsupported
key 99 leaves the vendor id set while the call errors. -/
theorem claim_C10_witness :
    ManifestState.update_parameter ManifestState.default
        (Decoder.new (encHead 5 2 ++
          (([PEntry.vendorId [0, 1, 2, 3, 4, 5, 6, 7, 8, 9, 10, 11, 12, 13, 14, 15]].map
            PEntry.enc).flatten ++ (encUint 99 ++ [])))) =
      (.err (.UnsupportedParameter 99),
        ManifestState.default.set_vendor_id
          ⟨[0, 1, 2, 3, 4, 5, 6, 7, 8, 9, 10, 11, 12, 13, 14, 15]⟩,
        ⟨[], 21⟩) := by
  have h := claim_C10 ManifestState.default
    [PEntry.vendorId [0, 1, 2, 3, 4, 5, 6, 7, 8, 9, 10, 11, 12, 13, 14, 15]] 99 0 []
    (by intro e he; rcases List.mem_singleton.mp he with rfl; simp [PEntry.wf])
    (by norm_num) (by unfold unsupportedParamKey; decide) (by norm_num)
  simpa [PEntry.enc, PEntry.apply, encUint, encHead, encBytes] using h

/-- Claim C1 (code bug in the source): `update_parameter` on a map whose
single entry has key 24 (DeviceId) and a 16-byte byte-string value
stores the decoded UUID in `vendor_id` — because `device_id_from_cbor`
calls `set_vendor_id` — and leaves `device_id` unset, contradicting the
claim (and the intent of the spec), which require the DeviceId parameter
to set `device_id`.  The input evaluated is `A1 1818 50` followed by the
16 bytes `00..0F`. -/
theorem claim_C1 :
    ManifestState.update_parameter ManifestState.default
        (Decoder.new [0xA1, 0x18, 0x18, 0x50,
          0, 1, 2, 3, 4, 5, 6, 7, 8, 9, 10, 11, 12, 13, 14, 15]) =
      (.ok (),
        { ManifestState.default with
            vendor_id := some ⟨[0, 1, 2, 3, 4, 5, 6, 7, 8, 9, 10, 11, 12, 13, 14, 15]⟩ },
        ⟨[], 20⟩) := by
  decide

/-- Claim C3 (code bug in the source): key 4 is aliased to
`ComponentSlot` by `SuitParameter::try_from` (flagged by the spec as a
typographical error), so `update_parameter` on the map `{4: 7}`
(CBOR `A1 04 07`) succeeds and sets `component_slot := 7` instead of
returning `UnsupportedParameter(4)`; and key 22 (SourceComponent,
CBOR `A1 16 00`) reaches the `todo!()` arm and panics instead of
returning `UnsupportedParameter(22)`. -/
theorem claim_C3 :
    ManifestState.update_parameter ManifestState.default (Decoder.new [0xA1, 0x04, 0x07]) =
      (.ok (), { ManifestState.default with component_slot := some 7 }, ⟨[], 3⟩) ∧
    (ManifestState.update_parameter ManifestState.default
        (Decoder.new [0xA1, 0x16, 0x00])).1 = .panicked := by
  constructor
  · decide
  · decide

/-- Claim C9: `SuitManifest::authenticate` returns `Ok` for every
input, rewrapping the same decoder; it inspects no bytes and performs
no runtime check. -/
theorem claim_C9 (m : SuitManifest) : SuitManifest.authenticate m = .ok ⟨m.decoder⟩ := rfl

theorem mapFind_encoded (entries : List (Nat × MVal)) :
    ∀ (suffix : List UInt8) (p : Nat),
    (∀ e ∈ entries, e.1 < 24) → (∀ e ∈ entries, e.2.wf) →
    mapFindEncodingVersion entries.length
        ⟨(entries.map (fun e => encUint e.1 ++ e.2.enc)).flatten ++ suffix, p⟩ =
      (entries.find? (fun e => e.1 == 1)).map (fun e => e.2.token) := by
  induction entries with
  | nil => intro suffix p _ _; rfl
  | cons e entries ih =>
    intro suffix p hk hv
    obtain ⟨k, v⟩ := e
    simp only [List.map_cons, List.flatten_cons, List.length_cons, List.append_assoc]
    rw [mapFindEncodingVersion]
    rw [i16_encUint_small k _ p (hk (k, v) (by simp))]
    dsimp only
    rw [token_decode_MVal v _ _ (hv (k, v) (by simp))]
    dsimp only
    by_cases hk1 : k = 1
    · subst hk1
      simp [List.find?]
    · have hne : ¬ ((k : Int) = 1) := by omega
      rw [if_neg hne]
      rw [ih _ _ (fun x hx => hk x (by simp [hx])) (fun x hx => hv x (by simp [hx]))]
      simp [List.find?_cons, hk1]

/-- Claim C7: for every manifest map as the data model shapes it
(small-integer keys, values that are unsigned integers, byte strings or
text strings), `version()` returns `Ok(1)` exactly when the first entry
with key 1 (EncodingVersion) has value 1, and
`UnsupportedManifestVersion` whenever that entry holds any other value
(or is absent). -/
theorem claim_C7 (entries : List (Nat × MVal))
    (hk : ∀ e ∈ entries, e.1 < 24) (hv : ∀ e ∈ entries, e.2.wf)
    (hc : entries.length < 2 ^ 64) :
    (Manifest.from_bytes (encManifestMap entries)).version =
      (match entries.find? (fun e => e.1 == 1) with
       | some e => if e.2 = .vuint 1 then .ok 1 else .err .UnsupportedManifestVersion
       | none => .err .UnsupportedManifestVersion) := by
  unfold Manifest.from_bytes Manifest.version encManifestMap Decoder.new
  dsimp only
  rw [map_encHead entries.length _ 0 hc]
  dsimp only
  rw [show (entries.map (fun e => encUint e.1 ++ e.2.enc)).flatten =
    (entries.map (fun e => encUint e.1 ++ e.2.enc)).flatten ++ [] by simp]
  rw [mapFind_encoded entries [] _ hk hv]
  cases hfind : entries.find? (fun e => e.1 == 1) with
  | none => rfl
  | some e =>
    have hew : e.2.wf := hv e (List.mem_of_find?_eq_some hfind)
    obtain ⟨k, v⟩ := e
    cases v with
    | vuint n =>
      by_cases hn1 : n = 1
      · subst hn1; simp [MVal.token, SUIT_SUPPORTED_VERSION]
      by_cases h1 : n < 256
      · simp [MVal.token, h1, hn1, SUIT_SUPPORTED_VERSION]
      by_cases h2 : n < 65536
      · simp [MVal.token, h1, h2, hn1]
      by_cases h3 : n < 4294967296
      · simp [MVal.token, h1, h2, h3, hn1]
      · simp [MVal.token, h1, h2, h3, hn1]
    | vbytes bs => simp [MVal.token]
    | vtext bs => simp [MVal.token]

theorem datatype_encArrayHead (n : Nat) (suffix : List UInt8) (p : Nat) :
    Decoder.datatype ⟨encHead 4 n ++ suffix, p⟩ = .ok .tArray := by
  unfold encHead Decoder.datatype
  by_cases h1 : n < 24
  · simp [h1, toNat_ofNat_lt (show 32 * 4 + n < 256 by omega),
      show ¬ (32 * 4 + n ≤ 0x18) by omega,
      show 32 * 4 + n ≠ 0x19 by omega, show 32 * 4 + n ≠ 0x1a by omega,
      show 32 * 4 + n ≠ 0x1b by omega,
      show ¬ (32 * 4 + n ≤ 0x38 ∧ 0x20 ≤ 32 * 4 + n) by omega,
      show 32 * 4 + n ≠ 0x39 by omega, show 32 * 4 + n ≠ 0x3a by omega,
      show 32 * 4 + n ≠ 0x3b by omega,
      show ¬ (0x40 ≤ 32 * 4 + n ∧ 32 * 4 + n ≤ 0x5b) by omega,
      show 32 * 4 + n ≠ 0x5f by omega,
      show ¬ (0x60 ≤ 32 * 4 + n ∧ 32 * 4 + n ≤ 0x7b) by omega,
      show 32 * 4 + n ≠ 0x7f by omega,
      show 0x80 ≤ 32 * 4 + n by omega, show 32 * 4 + n ≤ 0x9b by omega]
  by_cases h2 : n < 256
  · simp [h1, h2, UInt8.size]
  by_cases h3 : n < 65536
  · simp [h1, h2, h3, UInt8.size]
  by_cases h4 : n < 4294967296
  · simp [h1, h2, h3, h4, UInt8.size]
  · simp [h1, h2, h3, h4, UInt8.size]

theorem inApplylistAny_encoded (i : Nat) (ns : List Nat) :
    ∀ (suffix : List UInt8) (p : Nat), (∀ n ∈ ns, n < 4294967296) →
    ∃ d', inApplylistAny i ns.length ⟨(ns.map encUint).flatten ++ suffix, p⟩ =
      (.ok (decide (i ∈ ns)), d') := by
  induction ns with
  | nil => intro suffix p _; exact ⟨_, rfl⟩
  | cons n ns ih =>
    intro suffix p hlt
    simp only [List.map_cons, List.flatten_cons, List.length_cons, List.append_assoc]
    rw [inApplylistAny]
    rw [u32_encUint n _ p (hlt n (by simp))]
    dsimp only
    by_cases hni : n = i
    · subst hni
      simp [List.mem_cons]
    · obtain ⟨d', hd'⟩ := ih suffix (p + (encUint n).length) (fun x hx => hlt x (by simp [hx]))
      refine ⟨d', ?_⟩
      rw [if_neg hni, hd']
      simp [List.mem_cons, show ¬ (i = n) from fun h => hni h.symm]

/-- Claim C6, counterexample: on the unsigned integer `2^32` (CBOR
`1B 0000 0001 0000 0000`, datatype class u64) `in_applylist` for index
0 returns `UnexpectedCbor` and not the `ok false` that the claim (true
iff `i == n`) requires, since `0 ≠ 2^32`. -/
theorem claim_C6_counterexample :
    ComponentInfo.in_applylist ⟨⟨[0x81, 0x41, 0x00]⟩, 0⟩
        (Decoder.new [0x1b, 0x00, 0x00, 0x00, 0x01, 0x00, 0x00, 0x00, 0x00]) =
      (.err (.UnexpectedCbor 0),
        Decoder.new [0x1b, 0x00, 0x00, 0x00, 0x01, 0x00, 0x00, 0x00, 0x00]) ∧
    (0 : Nat) ≠ 4294967296 := by
  constructor
  · decide
  · decide

/-- Claim C6, amended: `in_applylist` returns `true` on the boolean
`true`; `UnexpectedCbor` on the boolean `false`; for every unsigned
integer `n < 2^32` (header classes u8/u16/u32), `true` iff the index
equals `n`; for every 64-bit-width unsigned integer, `UnexpectedCbor`;
and for every definite array of unsigned integers below `2^32`, `true`
iff the index is an element of the array. -/
theorem claim_C6_amended (c : Component) (i : Nat) (suffix : List UInt8) (p : Nat) :
    ComponentInfo.in_applylist ⟨c, i⟩ ⟨(0xf5 : UInt8) :: suffix, p⟩ =
        (.ok true, ⟨suffix, p + 1⟩) ∧
    ComponentInfo.in_applylist ⟨c, i⟩ ⟨(0xf4 : UInt8) :: suffix, p⟩ =
        (.err (.UnexpectedCbor (p + 1)), ⟨suffix, p + 1⟩) ∧
    (∀ n : Nat, n < 4294967296 →
      ComponentInfo.in_applylist ⟨c, i⟩ ⟨encUint n ++ suffix, p⟩ =
        (.ok (decide (n = i)), ⟨suffix, p + (encUint n).length⟩)) ∧
    (∀ n : Nat, 4294967296 ≤ n → n < 2 ^ 64 →
      ComponentInfo.in_applylist ⟨c, i⟩ ⟨encUint n ++ suffix, p⟩ =
        (.err (.UnexpectedCbor p), ⟨encUint n ++ suffix, p⟩)) ∧
    (∀ ns : List Nat, (∀ n ∈ ns, n < 4294967296) → ns.length < 2 ^ 64 →
      ∃ d', ComponentInfo.in_applylist ⟨c, i⟩
          ⟨encHead 4 ns.length ++ ((ns.map encUint).flatten ++ suffix), p⟩ =
        (.ok (decide (i ∈ ns)), d')) := by
  refine ⟨?_, ?_, ?_, ?_, ?_⟩
  · simp [ComponentInfo.in_applylist, Decoder.datatype, Decoder.bool, read_cons, UInt8.size]
  · simp [ComponentInfo.in_applylist, Decoder.datatype, Decoder.bool, read_cons, UInt8.size]
  · intro n hn
    unfold ComponentInfo.in_applylist
    rw [datatype_encUint]
    by_cases h1 : n < 256
    · simp only [if_pos h1]
      rw [u32_encUint n suffix p hn]
    by_cases h2 : n < 65536
    · simp only [if_neg h1, if_pos h2]
      rw [u32_encUint n suffix p hn]
    · simp only [if_neg h1, if_neg h2, if_pos hn]
      rw [u32_encUint n suffix p hn]
  · intro n hge hlt
    unfold ComponentInfo.in_applylist
    rw [datatype_encUint]
    simp only [show ¬ (n < 256) by omega, show ¬ (n < 65536) by omega,
      show ¬ (n < 4294967296) by omega, if_neg, if_false]
  · intro ns hns hlen
    obtain ⟨d', hd'⟩ := inApplylistAny_encoded i ns suffix
      (p + (encHead 4 ns.length).length) hns
    refine ⟨d', ?_⟩
    unfold ComponentInfo.in_applylist
    rw [datatype_encArrayHead]
    dsimp only
    rw [array_encHead ns.length _ p hlen]
    dsimp only
    exact hd'

theorem read_not_param (d : Decoder) : (d.read).1.paramNotSetErr = false := by
  unfold Decoder.read
  cases d.rest <;> simp [RResult.paramNotSetErr, Error.isParamNotSet]

theorem readBE_not_param (k : Nat) : ∀ d : Decoder, (Decoder.readBE k d).1.paramNotSetErr = false := by
  induction k with
  | zero => intro d; simp [Decoder.readBE, RResult.paramNotSetErr]
  | succ k ih =>
    intro d
    rw [Decoder.readBE]
    rcases hr : d.read with ⟨r, d₁⟩
    cases r with
    | ok b =>
      rcases hb : Decoder.readBE k d₁ with ⟨r₂, d₂⟩
      have := ih d₁
      rw [hb] at this
      cases r₂ <;> simp_all [RResult.paramNotSetErr]
    | err e =>
      have := read_not_param d
      rw [hr] at this
      simpa [RResult.paramNotSetErr] using this
    | panicked => simp [RResult.paramNotSetErr]

theorem readSlice_not_param (n : Nat) (d : Decoder) :
    (Decoder.readSlice n d).1.paramNotSetErr = false := by
  unfold Decoder.readSlice
  split <;> simp [RResult.paramNotSetErr, Error.isParamNotSet]

theorem mapOk_not_param {α β : Type} (f : α → β) (x : RResult α × Decoder) :
    (RResult.mapOk f x).1.paramNotSetErr = x.1.paramNotSetErr := by
  rcases x with ⟨r, d⟩
  cases r with
  | ok a => rfl
  | err e => cases e <;> rfl
  | panicked => rfl

theorem readArg_not_param (ai p0 : Nat) (d : Decoder) :
    (Decoder.readArg ai p0 d).1.paramNotSetErr = false := by
  unfold Decoder.readArg
  split_ifs
  · rfl
  · rw [mapOk_not_param]; exact read_not_param d
  · rw [mapOk_not_param]; exact readBE_not_param 2 d
  · rw [mapOk_not_param]; exact readBE_not_param 4 d
  · rw [mapOk_not_param]; exact readBE_not_param 8 d
  · rfl
  · rfl

theorem skipItems_not_param : ∀ (fuel k : Nat) (d : Decoder),
    (Decoder.skipItems fuel k d).1.paramNotSetErr = false := by
  intro fuel
  induction fuel with
  | zero => intro k d; rfl
  | succ fuel ih =>
    intro k d
    cases k with
    | zero => rfl
    | succ k =>
      rw [Decoder.skipItems]
      rcases hr : d.read with ⟨r, d₁⟩
      cases r with
      | ok n =>
        dsimp only
        rcases ha : d₁.readArg (n % 32) d.pos with ⟨ra, d₂⟩
        cases ra with
        | ok arg =>
          cases arg with
          | some v =>
            dsimp only
            split_ifs
            · exact ih k d₂
            · rcases hs : d₂.readSlice v with ⟨rs, d₃⟩
              have hsl := readSlice_not_param v d₂
              rw [hs] at hsl
              cases rs with
              | ok bs => exact ih k d₃
              | err e => dsimp only; exact hsl
              | panicked => rfl
            · exact ih (k + v) d₂
            · exact ih (k + 2 * v) d₂
            · exact ih (k + 1) d₂
            · exact ih k d₂
          | none => rfl
        | err e =>
          have hsl := readArg_not_param (n % 32) d.pos d₁
          rw [ha] at hsl
          dsimp only
          exact hsl
        | panicked => rfl
      | err e =>
        have hsl := read_not_param d
        rw [hr] at hsl
        dsimp only
        exact hsl
      | panicked => rfl

theorem skip_not_param (d : Decoder) : (d.skip).1.paramNotSetErr = false :=
  skipItems_not_param _ 1 d

/-- Claim C5, counterexample: with `match_component` true, an enabled
`VendorIdentifier` condition whose parameter is unset raises
`ParameterNotSet` after zero hook invocations — not exactly one — and
an enabled `ImageMatch` over a 128-byte component with a 64-byte read
buffer performs three hook invocations (one size query and two chunked
reads), also not exactly one. -/
theorem claim_C5_counterexample :
    Manifest.process_sequence demoManifest demoHooks demoHash [0x82, 0x01, 0x0F]
        ManifestState.default demoComp =
      (.err (.ParameterNotSet 0), []) ∧
    (Manifest.process_sequence demoManifest demoHooks demoHash [0x82, 0x03, 0x0F]
        { ManifestState.default with image_digest := some ⟨.Sha256, []⟩ } demoComp).2 =
      [.componentSize demoComponent,
       .componentRead demoComponent none 0 64,
       .componentRead demoComponent none 64 64] := by
  constructor
  · decide
  · decide

/-- Claim C5, amended: during `process_sequence`, whenever
`match_component` is false, no opcode other than `SetComponentIndex` is
interpreted and no `OperatingHooks` method is invoked — every other
opcode equals a bare `skip` of its argument with state, flag and event
log untouched, and the error (if any) is never `ParameterNotSet`; and
whenever `match_component` is true, each of the identifier/slot
conditions invokes its matcher hook exactly once when its parameter is
set, and raises `ParameterNotSet` with no hook invocation when it is
absent. -/
theorem claim_C5_amended (m : Manifest) (hooks : OperatingHooks) (hashFn : HashFn)
    (comp : ComponentInfo) (runSeq : SeqRunner) (s : ManifestState) (d : Decoder) :
    (∀ cmd, cmd ≠ SuitCommand.SetComponentIndex →
      processStep m hooks hashFn comp runSeq cmd false s d =
        (match d.skip with
         | (.ok _, d₁) => (.ok (s, d₁, false), [])
         | (.err e, _) => (.err e, [])
         | (.panicked, _) => (.panicked, []))) ∧
    (∀ cmd, cmd ≠ SuitCommand.SetComponentIndex → ∀ code,
      (processStep m hooks hashFn comp runSeq cmd false s d).1 ≠
        .err (.ParameterNotSet code)) ∧
    (processStep m hooks hashFn comp runSeq .SetComponentIndex false s d =
      (match comp.in_applylist d with
       | (.ok mc, d₁) => (.ok (s, d₁, mc), [])
       | (.err e, _) => (.err e, [])
       | (.panicked, _) => (.panicked, []))) ∧
    (∀ u, s.vendor_id = some u →
      (processStep m hooks hashFn comp runSeq .VendorIdentifier true s d).2 =
        [.matchVendorId u comp.component]) ∧
    (s.vendor_id = none →
      processStep m hooks hashFn comp runSeq .VendorIdentifier true s d =
        (.err (.ParameterNotSet 0), [])) ∧
    (∀ u, s.class_id = some u →
      (processStep m hooks hashFn comp runSeq .ClassIdentifier true s d).2 =
        [.matchClassId u comp.component]) ∧
    (s.class_id = none →
      processStep m hooks hashFn comp runSeq .ClassIdentifier true s d =
        (.err (.ParameterNotSet 0), [])) ∧
    (∀ n, s.component_slot = some n →
      (processStep m hooks hashFn comp runSeq .ComponentSlot true s d).2 =
        [.matchComponentSlot comp.component n]) ∧
    (s.component_slot = none →
      processStep m hooks hashFn comp runSeq .ComponentSlot true s d =
        (.err (.ParameterNotSet 0), [])) ∧
    (∀ u, s.device_id = some u →
      (processStep m hooks hashFn comp runSeq .DeviceIdentifier true s d).2 =
        [.matchDeviceId u comp.component]) ∧
    (s.device_id = none →
      processStep m hooks hashFn comp runSeq .DeviceIdentifier true s d =
        (.err (.ParameterNotSet 0), [])) := by
  refine ⟨?_, ?_, ?_, ?_, ?_, ?_, ?_, ?_, ?_, ?_, ?_⟩
  · intro cmd hcmd
    unfold processStep
    simp [hcmd]
  · intro cmd hcmd code
    unfold processStep
    simp only [if_pos rfl, if_neg hcmd]
    have hsk := skip_not_param d
    rcases hs : d.skip with ⟨rs, d₁⟩
    rw [hs] at hsk
    cases rs with
    | ok _ => simp
    | err e =>
      dsimp only
      intro hcontra
      rw [show e = Error.ParameterNotSet code by exact (RResult.err.injEq _ _).mp hcontra] at hsk
      simp [RResult.paramNotSetErr, Error.isParamNotSet] at hsk
    | panicked => simp
  · unfold processStep
    simp
  · intro u hu
    unfold processStep cond_vendor_identifier
    rw [hu]
    cases hres : hooks.match_vendor_id u comp.component with
    | ok b =>
      cases b
      · simp [hres]
      · rcases hrp : ReportingPolicy.decode d with ⟨r, d₁⟩
        cases r <;> simp [hres, hrp]
    | error e => simp [hres]
  · intro hu
    unfold processStep cond_vendor_identifier
    simp [hu]
  · intro u hu
    unfold processStep cond_class_identifier
    rw [hu]
    cases hres : hooks.match_class_id u comp.component with
    | ok b =>
      cases b
      · simp [hres]
      · rcases hrp : ReportingPolicy.decode d with ⟨r, d₁⟩
        cases r <;> simp [hres, hrp]
    | error e => simp [hres]
  · intro hu
    unfold processStep cond_class_identifier
    simp [hu]
  · intro n hn
    unfold processStep cond_component_slot
    rw [hn]
    cases hres : hooks.match_component_slot comp.component n with
    | ok b =>
      cases b
      · simp [hres]
      · rcases hrp : ReportingPolicy.decode d with ⟨r, d₁⟩
        cases r <;> simp [hres, hrp]
    | error e => simp [hres]
  · intro hn
    unfold processStep cond_component_slot
    simp [hn]
  · intro u hu
    unfold processStep cond_device_identifier
    rw [hu]
    cases hres : hooks.match_device_id u comp.component with
    | ok b =>
      cases b
      · simp [hres]
      · rcases hrp : ReportingPolicy.decode d with ⟨r, d₁⟩
        cases r <;> simp [hres, hrp]
    | error e => simp [hres]
  · intro hu
    unfold processStep cond_device_identifier
    simp [hu]

/-- Claim C5, witness: the skip-mode conjunct at `Abort` over a
one-byte argument, and the vendor conjunct with the parameter set. -/
theorem claim_C5_witness :
    processStep demoManifest demoHooks demoHash demoComp (fun _ s => (.ok s, []))
        .Abort false ManifestState.default (Decoder.new [0x0F]) =
      (.ok (ManifestState.default, ⟨[], 1⟩, false), []) ∧
    (processStep demoManifest demoHooks demoHash demoComp (fun _ s => (.ok s, []))
        .VendorIdentifier true
        { ManifestState.default with vendor_id := some demoUuid }
        (Decoder.new [0x0F])).2 =
      [.matchVendorId demoUuid demoComponent] := by
  have h := claim_C5_amended demoManifest demoHooks demoHash demoComp
    (fun _ s => (.ok s, [])) ManifestState.default (Decoder.new [0x0F])
  have h' := claim_C5_amended demoManifest demoHooks demoHash demoComp
    (fun _ s => (.ok s, []))
    { ManifestState.default with vendor_id := some demoUuid } (Decoder.new [0x0F])
  constructor
  · rw [h.1 .Abort (by decide)]
    decide
  · exact h'.2.2.2.1 demoUuid rfl

theorem tryEachLoop_skip_failing (runSeq : SeqRunner) (s : ManifestState)
    (pre : List (List UInt8)) :
    ∀ (n₂ : Nat) (tail : List UInt8) (p : Nat),
    (∀ c ∈ pre, c ≠ [] ∧ (runSeq c s).1.isErr = true ∧ c.length < 2 ^ 32) →
    tryEachLoop runSeq (pre.length + n₂) s ⟨(pre.map encBytes).flatten ++ tail, p⟩ =
      (match tryEachLoop runSeq n₂ s ⟨tail, p + ((pre.map encBytes).flatten).length⟩ with
       | (r, s', d', evs) => (r, s', d', (pre.map (fun c => (runSeq c s).2)).flatten ++ evs)) := by
  induction pre with
  | nil =>
    intro n₂ tail p _
    rcases h : tryEachLoop runSeq n₂ s ⟨tail, p⟩ with ⟨r, s', d', evs⟩
    simp [h]
  | cons c pre ih =>
    intro n₂ tail p hpre
    obtain ⟨hc, herr, hlen⟩ := hpre c (by simp)
    rw [show (c :: pre).length + n₂ = (pre.length + n₂) + 1 by simp; omega]
    simp only [List.map_cons, List.flatten_cons, List.append_assoc]
    rw [tryEachLoop]
    rw [bytes_encBytes c _ p hlen]
    dsimp only
    rw [if_neg hc]
    rcases hr : runSeq c s with ⟨r, evs⟩
    cases r with
    | ok s₁ => rw [hr] at herr; simp [RResult.isErr] at herr
    | panicked => rw [hr] at herr; simp [RResult.isErr] at herr
    | err e =>
      dsimp only
      rw [ih n₂ tail (p + (encBytes c).length)
        (fun x hx => hpre x (by simp [hx]))]
      rcases hl : tryEachLoop runSeq n₂ s
        ⟨tail, p + (encBytes c).length + ((pre.map encBytes).flatten).length⟩
        with ⟨r₂, s₂, d₂, evs₂⟩
      rcases hl₂ : tryEachLoop runSeq n₂ s
        ⟨tail, p + ((encBytes c ++ (pre.map encBytes).flatten).length)⟩
        with ⟨r₃, s₃, d₃, evs₃⟩
      have : (⟨tail, p + (encBytes c).length + ((pre.map encBytes).flatten).length⟩ : Decoder) =
          ⟨tail, p + ((encBytes c ++ (pre.map encBytes).flatten).length)⟩ := by
        simp [List.length_append]; omega
      rw [this] at hl
      rw [hl] at hl₂
      cases hl₂
      simp [hr, List.append_assoc]

/-- Claim C4: `TryEach` semantics.  With `R` the interpreter applied to
a sub-sequence (`process_sequence` at some fuel), for a definite array
of byte-string candidates: (1) after any run of failing candidates an
empty candidate is unconditional success with the state unchanged and
no later candidate run; (2) the first succeeding candidate — each run
on the same (cloned) entry state `s` — determines the resulting state,
and the recorded hook events stop with it, so later candidates are not
run; (3) if every candidate fails, the result is
`TryEachFail(position)` and the state is the pre-`TryEach` one. -/
theorem claim_C4 (m : Manifest) (hooks : OperatingHooks) (hashFn : HashFn)
    (comp : ComponentInfo) (fuel : Nat) (R : SeqRunner)
    (_hR : R = processSequenceF m hooks hashFn comp fuel)
    (s : ManifestState) (suffix : List UInt8) (p : Nat) :
    (∀ pre post,
      (∀ c ∈ pre, c ≠ [] ∧ (R c s).1.isErr = true ∧ c.length < 2 ^ 32) →
      (pre ++ [] :: post).length < 2 ^ 64 →
      ∃ d', try_each R s
          ⟨encHead 4 (pre ++ [] :: post).length ++
            (((pre ++ [] :: post).map encBytes).flatten ++ suffix), p⟩ =
        (.ok (), s, d', (pre.map (fun c => (R c s).2)).flatten)) ∧
    (∀ pre c post s' evs,
      (∀ x ∈ pre, x ≠ [] ∧ (R x s).1.isErr = true ∧ x.length < 2 ^ 32) →
      c ≠ [] → c.length < 2 ^ 32 → R c s = (.ok s', evs) →
      (pre ++ c :: post).length < 2 ^ 64 →
      ∃ d', try_each R s
          ⟨encHead 4 (pre ++ c :: post).length ++
            (((pre ++ c :: post).map encBytes).flatten ++ suffix), p⟩ =
        (.ok (), s', d', (pre.map (fun x => (R x s).2)).flatten ++ evs)) ∧
    (∀ cs : List (List UInt8),
      (∀ c ∈ cs, c ≠ [] ∧ (R c s).1.isErr = true ∧ c.length < 2 ^ 32) →
      cs.length < 2 ^ 64 →
      try_each R s ⟨encHead 4 cs.length ++ ((cs.map encBytes).flatten ++ suffix), p⟩ =
        (.err (.TryEachFail
            (p + (encHead 4 cs.length).length + ((cs.map encBytes).flatten).length)),
          s,
          ⟨suffix, p + (encHead 4 cs.length).length + ((cs.map encBytes).flatten).length⟩,
          (cs.map (fun c => (R c s).2)).flatten)) := by
  refine ⟨?_, ?_, ?_⟩
  · intro pre post hpre hlen
    unfold try_each
    rw [array_encHead _ _ p hlen]
    dsimp only
    rw [show (pre ++ [] :: post).length = pre.length + (post.length + 1) by simp]
    rw [show (((pre ++ [] :: post).map encBytes).flatten : List UInt8) ++ suffix =
      (pre.map encBytes).flatten ++ (encBytes [] ++ ((post.map encBytes).flatten ++ suffix))
      by simp]
    rw [tryEachLoop_skip_failing R s pre (post.length + 1) _ _ hpre]
    rw [tryEachLoop]
    rw [show (encBytes ([] : List UInt8)) ++ ((post.map encBytes).flatten ++ suffix) =
      encBytes ([] : List UInt8) ++ ((post.map encBytes).flatten ++ suffix) from rfl]
    rw [bytes_encBytes [] _ _ (by simp)]
    simp
  · intro pre c post s' evs hpre hc hclen hrun hlen
    unfold try_each
    rw [array_encHead _ _ p hlen]
    dsimp only
    rw [show (pre ++ c :: post).length = pre.length + (post.length + 1) by simp]
    rw [show (((pre ++ c :: post).map encBytes).flatten : List UInt8) ++ suffix =
      (pre.map encBytes).flatten ++ (encBytes c ++ ((post.map encBytes).flatten ++ suffix))
      by simp]
    rw [tryEachLoop_skip_failing R s pre (post.length + 1) _ _ hpre]
    rw [tryEachLoop]
    rw [bytes_encBytes c _ _ hclen]
    dsimp only
    rw [if_neg hc, hrun]
    simp
  · intro cs hcs hlen
    unfold try_each
    rw [array_encHead _ _ p hlen]
    dsimp only
    rw [show cs.length = cs.length + 0 by omega]
    rw [tryEachLoop_skip_failing R s cs 0 suffix _ hcs]
    rw [tryEachLoop]
    simp [Nat.add_assoc]

/-- Claim C4, witness: candidate `[0x81]` (an odd-length command array,
which fails) followed by the empty terminator succeeds with the state
unchanged. -/
theorem claim_C4_witness :
    ∃ d', try_each (processSequenceF demoManifest demoHooks demoHash demoComp 4)
        ManifestState.default
        ⟨encHead 4 ((([[0x81]] : List (List UInt8)) ++ [] :: []).length) ++
          (((([[0x81]] : List (List UInt8)) ++ [] :: []).map encBytes).flatten ++ []), 0⟩ =
      (.ok (), ManifestState.default, d',
        (([[0x81]] : List (List UInt8)).map
          (fun c => ((processSequenceF demoManifest demoHooks demoHash demoComp 4) c
            ManifestState.default).2)).flatten) :=
  (claim_C4 demoManifest demoHooks demoHash demoComp 4 _ rfl
      ManifestState.default [] 0).1 [[0x81]] [] (by decide) (by decide)

/-- Claim C2, counterexample: a `TryEach` candidate that fails because
the `match_vendor_id` hook returned an error (`CapacityError`) is
masked like any other failure — the interpreter tries the next
candidate and `TryEach` succeeds, so the hook error does not propagate
out of `TryEach`.  Conjuncts: the hook errs; running the candidate
alone surfaces exactly that hook error after one hook invocation; yet
the two-candidate `TryEach` sequence returns `ok` with the state
unchanged. -/
theorem claim_C2_counterexample :
    errHooks.match_vendor_id demoUuid demoComponent = .error .CapacityError ∧
    Manifest.process_sequence demoManifest errHooks demoHash [0x82, 0x01, 0x0F]
        { ManifestState.default with vendor_id := some demoUuid } demoComp =
      (.err .CapacityError, [.matchVendorId demoUuid demoComponent]) ∧
    Manifest.process_sequence demoManifest errHooks demoHash
        [0x82, 0x0F, 0x82, 0x43, 0x82, 0x01, 0x0F, 0x40]
        { ManifestState.default with vendor_id := some demoUuid } demoComp =
      (.ok { ManifestState.default with vendor_id := some demoUuid },
        [.matchVendorId demoUuid demoComponent]) := by
  refine ⟨rfl, by decide, by decide⟩

/-- Claim C2, amended: `try_each` masks every candidate failure —
failures caused by `OperatingHooks` errors included — and retries the
next candidate; the error value `e` below is arbitrary, so in
particular any hook error is masked whenever a later candidate
succeeds. -/
theorem claim_C2_amended (m : Manifest) (hooks : OperatingHooks) (hashFn : HashFn)
    (comp : ComponentInfo) (fuel : Nat) (R : SeqRunner)
    (_hR : R = processSequenceF m hooks hashFn comp fuel)
    (s s' : ManifestState) (suffix : List UInt8) (p : Nat)
    (c1 c2 : List UInt8) (e : Error) (evs1 evs2 : List HookEvent)
    (hc1 : c1 ≠ []) (hl1 : c1.length < 2 ^ 32) (hrun1 : R c1 s = (.err e, evs1))
    (hc2 : c2 ≠ []) (hl2 : c2.length < 2 ^ 32) (hrun2 : R c2 s = (.ok s', evs2)) :
    ∃ d', try_each R s
        ⟨encHead 4 2 ++ (encBytes c1 ++ (encBytes c2 ++ suffix)), p⟩ =
      (.ok (), s', d', evs1 ++ evs2) := by
  unfold try_each
  rw [array_encHead 2 _ p (by norm_num)]
  dsimp only
  rw [tryEachLoop]
  rw [bytes_encBytes c1 _ _ hl1]
  dsimp only
  rw [if_neg hc1, hrun1]
  dsimp only
  rw [tryEachLoop]
  rw [bytes_encBytes c2 _ _ hl2]
  dsimp only
  rw [if_neg hc2, hrun2]
  exact ⟨_, rfl⟩

/-- Claim C2, witness for the amended theorem: the concrete hook-error
candidate of the counterexample followed by the trivial sequence
`[0x80]`. -/
theorem claim_C2_amended_witness :
    ∃ d', try_each (processSequenceF demoManifest errHooks demoHash demoComp 4)
        { ManifestState.default with vendor_id := some demoUuid }
        ⟨encHead 4 2 ++ (encBytes [0x82, 0x01, 0x0F] ++ (encBytes [0x80] ++ [])), 0⟩ =
      (.ok (), { ManifestState.default with vendor_id := some demoUuid }, d',
        [.matchVendorId demoUuid demoComponent] ++ []) :=
  claim_C2_amended demoManifest errHooks demoHash demoComp 4 _ rfl
    { ManifestState.default with vendor_id := some demoUuid }
    { ManifestState.default with vendor_id := some demoUuid } [] 0
    [0x82, 0x01, 0x0F] [0x80] .CapacityError
    [.matchVendorId demoUuid demoComponent] []
    (by decide) (by decide) (by decide) (by decide) (by decide) (by decide)

/-- Claim C8: the component loop of `process_validate` silently skips
any entry that failed to decode as a `Component` — the loop on an
`Err` item equals the loop on the remaining items (with the enumerate
index still advanced) — and a list consisting only of malformed entries
runs no command sequence and returns `Ok`. -/
theorem claim_C8 (m : Manifest) (hooks : OperatingHooks) (hashFn : HashFn)
    (commands : List UInt8) :
    (∀ (e : Error) (restItems : List (RResult Component)) (idx : Nat),
      processValidateItems m hooks hashFn commands (.err e :: restItems) idx =
        processValidateItems m hooks hashFn commands restItems (idx + 1)) ∧
    (∀ (items : List (RResult Component)), (∀ x ∈ items, x.isErr = true) →
      ∀ idx, processValidateItems m hooks hashFn commands items idx = (.ok (), [])) := by
  constructor
  · intro e restItems idx
    rfl
  · intro items
    induction items with
    | nil => intro _ idx; rfl
    | cons x restItems ih =>
      intro hall idx
      have hx := hall x (by simp)
      cases x with
      | ok c => simp [RResult.isErr] at hx
      | panicked => simp [RResult.isErr] at hx
      | err e =>
        rw [show processValidateItems m hooks hashFn commands (.err e :: restItems) idx =
          processValidateItems m hooks hashFn commands restItems (idx + 1) from rfl]
        exact ih (fun y hy => hall y (by simp [hy])) (idx + 1)

/-- Claim C8, witness: two malformed component entries produce `Ok`
with no hook invocation. -/
theorem claim_C8_witness :
    processValidateItems demoManifest demoHooks demoHash [0x80]
        [.err .EndOfInput, .err (.UnexpectedCbor 3)] 0 = (.ok (), []) :=
  (claim_C8 demoManifest demoHooks demoHash [0x80]).2
    [.err .EndOfInput, .err (.UnexpectedCbor 3)] (by decide) 0

/-- Claim C7, witness: a three-entry manifest map carrying
EncodingVersion 1. -/
theorem claim_C7_witness :
    (Manifest.from_bytes (encManifestMap
        [(3, .vbytes [0xAA]), (1, .vuint 1), (2, .vuint 5)])).version = .ok 1 := by
  have h := claim_C7 [(3, .vbytes [0xAA]), (1, .vuint 1), (2, .vuint 5)]
    (by intro e he; fin_cases he <;> norm_num)
    (by intro e he; fin_cases he <;> norm_num [MVal.wf])
    (by norm_num)
  simpa using h

/-- Claim C6, witness for the amended theorem: index 0 against the
canonical encoding of the integer 0 matches. -/
theorem claim_C6_witness :
    ComponentInfo.in_applylist ⟨demoComponent, 0⟩ ⟨encUint 0 ++ [], 0⟩ =
      (.ok (decide ((0 : Nat) = 0)), ⟨[], 0 + (encUint 0).length⟩) :=
  (claim_C6_amended demoComponent 0 [] 0).2.2.1 0 (by norm_num)
